import Mathlib

/-!
# Verification of the Data Alchemist validation and allocation engines

Shallow embedding of `src/app/validation.ts` (`parsePhases`, `validateData`)
and the allocation scoring function `generateAllocationPreview` from the
page component, together with proofs about the claims of the specification.

JavaScript runtime values are modelled by `JVal`; JavaScript numbers are
idealised as exact rationals (`ℚ`), with `Option ℚ` where `none` stands for
`NaN`.  JavaScript exceptions (`TypeError` from calling a string method on a
non-string, uncaught `SyntaxError`) are modelled with `Except Unit`.
-/

/-- A JavaScript runtime value, as stored in a table cell or produced by
`JSON.parse`.  `num none` is `NaN`; object identity (reference equality of
arrays/objects) is not modelled — composite values compare structurally. -/
inductive JVal where
  | undef : JVal
  | null : JVal
  | bool (b : Bool) : JVal
  | num (q : Option ℚ) : JVal
  | str (s : String) : JVal
  | arr (xs : List JVal) : JVal
  | obj (fs : List (String × JVal)) : JVal

mutual

/-- Decidable (structural) equality on `JVal`. -/
def JVal.jdecEq : (a b : JVal) → Decidable (a = b)
  | .undef, .undef => isTrue rfl
  | .null, .null => isTrue rfl
  | .bool x, .bool y =>
    match decEq x y with
    | isTrue h => isTrue (h ▸ rfl)
    | isFalse h => isFalse fun e => h (JVal.bool.inj e)
  | .num x, .num y =>
    match decEq x y with
    | isTrue h => isTrue (h ▸ rfl)
    | isFalse h => isFalse fun e => h (JVal.num.inj e)
  | .str x, .str y =>
    match decEq x y with
    | isTrue h => isTrue (h ▸ rfl)
    | isFalse h => isFalse fun e => h (JVal.str.inj e)
  | .arr xs, .arr ys =>
    match JVal.jdecEqList xs ys with
    | isTrue h => isTrue (h ▸ rfl)
    | isFalse h => isFalse fun e => h (JVal.arr.inj e)
  | .obj xs, .obj ys =>
    match JVal.jdecEqObj xs ys with
    | isTrue h => isTrue (h ▸ rfl)
    | isFalse h => isFalse fun e => h (JVal.obj.inj e)
  | .undef, .null => isFalse nofun
  | .undef, .bool _ => isFalse nofun
  | .undef, .num _ => isFalse nofun
  | .undef, .str _ => isFalse nofun
  | .undef, .arr _ => isFalse nofun
  | .undef, .obj _ => isFalse nofun
  | .null, .undef => isFalse nofun
  | .null, .bool _ => isFalse nofun
  | .null, .num _ => isFalse nofun
  | .null, .str _ => isFalse nofun
  | .null, .arr _ => isFalse nofun
  | .null, .obj _ => isFalse nofun
  | .bool _, .undef => isFalse nofun
  | .bool _, .null => isFalse nofun
  | .bool _, .num _ => isFalse nofun
  | .bool _, .str _ => isFalse nofun
  | .bool _, .arr _ => isFalse nofun
  | .bool _, .obj _ => isFalse nofun
  | .num _, .undef => isFalse nofun
  | .num _, .null => isFalse nofun
  | .num _, .bool _ => isFalse nofun
  | .num _, .str _ => isFalse nofun
  | .num _, .arr _ => isFalse nofun
  | .num _, .obj _ => isFalse nofun
  | .str _, .undef => isFalse nofun
  | .str _, .null => isFalse nofun
  | .str _, .bool _ => isFalse nofun
  | .str _, .num _ => isFalse nofun
  | .str _, .arr _ => isFalse nofun
  | .str _, .obj _ => isFalse nofun
  | .arr _, .undef => isFalse nofun
  | .arr _, .null => isFalse nofun
  | .arr _, .bool _ => isFalse nofun
  | .arr _, .num _ => isFalse nofun
  | .arr _, .str _ => isFalse nofun
  | .arr _, .obj _ => isFalse nofun
  | .obj _, .undef => isFalse nofun
  | .obj _, .null => isFalse nofun
  | .obj _, .bool _ => isFalse nofun
  | .obj _, .num _ => isFalse nofun
  | .obj _, .str _ => isFalse nofun
  | .obj _, .arr _ => isFalse nofun

/-- Decidable equality on lists of `JVal`. -/
def JVal.jdecEqList : (xs ys : List JVal) → Decidable (xs = ys)
  | [], [] => isTrue rfl
  | [], _ :: _ => isFalse nofun
  | _ :: _, [] => isFalse nofun
  | x :: xs, y :: ys =>
    match JVal.jdecEq x y with
    | isFalse h => isFalse fun e => h (List.cons.inj e).1
    | isTrue h1 =>
      match JVal.jdecEqList xs ys with
      | isTrue h2 => isTrue (h1 ▸ h2 ▸ rfl)
      | isFalse h => isFalse fun e => h (List.cons.inj e).2

/-- Decidable equality on object field lists. -/
def JVal.jdecEqObj : (xs ys : List (String × JVal)) → Decidable (xs = ys)
  | [], [] => isTrue rfl
  | [], _ :: _ => isFalse nofun
  | _ :: _, [] => isFalse nofun
  | (k, v) :: xs, (l, w) :: ys =>
    match decEq k l with
    | isFalse h => isFalse fun e => h (congrArg Prod.fst (List.cons.inj e).1)
    | isTrue h1 =>
      match JVal.jdecEq v w with
      | isFalse h => isFalse fun e => h (congrArg Prod.snd (List.cons.inj e).1)
      | isTrue h2 =>
        match JVal.jdecEqObj xs ys with
        | isTrue h3 => isTrue (h1 ▸ h2 ▸ h3 ▸ rfl)
        | isFalse h => isFalse fun e => h (List.cons.inj e).2

end

instance : DecidableEq JVal := JVal.jdecEq

/-- A table row: a JavaScript object, field name to value.  Absent fields
read as `undefined`. -/
abbrev Row := List (String × JVal)

/-- Property read `row.k`: first binding wins (JS objects have unique keys). -/
def getCell (r : Row) (k : String) : JVal :=
  match r.find? (fun p => p.1 == k) with
  | some p => p.2
  | none => .undef

example : getCell [("a", .num (some 3))] "a" = .num (some 3) := by decide
example : getCell [("a", .num (some 3))] "b" = .undef := by decide

/-! ## JavaScript value coercions -/

/-- JS truthiness: `undefined`, `null`, `false`, `0`, `NaN` and `""` are
falsy; every other value (including empty arrays/objects) is truthy. -/
def truthy : JVal → Bool
  | .undef => false
  | .null => false
  | .bool b => b
  | .num none => false
  | .num (some q) => q != 0
  | .str s => s != ""
  | .arr _ => true
  | .obj _ => true

/-! ### Kernel-computable exact rational arithmetic

`Rat.add`/`Rat.mul`/`Rat.div` are irreducible in this toolchain, so the
embedding computes with `mkRat`-based operations and bridges them to the
ordinary field operations by the `q*_eq` lemmas below. -/

/-- Addition on `ℚ` via `mkRat` (kernel-computable). -/
def qadd (a b : ℚ) : ℚ := mkRat (a.num * b.den + b.num * a.den) (a.den * b.den)

/-- Multiplication on `ℚ` via `mkRat` (kernel-computable). -/
def qmul (a b : ℚ) : ℚ := mkRat (a.num * b.num) (a.den * b.den)

/-- Negation on `ℚ` via `mkRat` (kernel-computable). -/
def qneg (a : ℚ) : ℚ := mkRat (-a.num) a.den

/-- Division on `ℚ` via `mkRat` (kernel-computable; division by zero gives
zero, matching Lean's convention — the embedded code never divides by 0). -/
def qdiv (a b : ℚ) : ℚ := mkRat (a.num * b.den * b.num.sign) (a.den * b.num.natAbs)

/-- Subtraction on `ℚ` via `mkRat` (kernel-computable). -/
def qsub (a b : ℚ) : ℚ := qadd a (qneg b)

theorem qadd_eq (a b : ℚ) : qadd a b = a + b := by
  rw [qadd, Rat.mkRat_eq_div]
  conv_rhs => rw [← Rat.num_div_den a, ← Rat.num_div_den b]
  rw [div_add_div _ _ (by exact_mod_cast a.den_ne_zero) (by exact_mod_cast b.den_ne_zero)]
  push_cast
  ring_nf

theorem qmul_eq (a b : ℚ) : qmul a b = a * b := by
  rw [qmul, Rat.mkRat_eq_div]
  conv_rhs => rw [← Rat.num_div_den a, ← Rat.num_div_den b]
  rw [div_mul_div_comm]
  push_cast
  ring_nf

theorem qneg_eq (a : ℚ) : qneg a = -a := by
  rw [qneg, Rat.mkRat_eq_div]
  conv_rhs => rw [← Rat.num_div_den a]
  push_cast
  ring_nf

theorem qdiv_eq (a b : ℚ) : qdiv a b = a / b := by
  rcases eq_or_ne b 0 with hb | hb
  · subst hb
    simp [qdiv, Rat.mkRat_eq_div]
  · have hbn : b.num ≠ 0 := Rat.num_ne_zero.mpr hb
    have hbnq : (b.num : ℚ) ≠ 0 := by exact_mod_cast hbn
    have hbd : (b.den : ℚ) ≠ 0 := by exact_mod_cast b.den_ne_zero
    have had : (a.den : ℚ) ≠ 0 := by exact_mod_cast a.den_ne_zero
    rw [qdiv, Rat.mkRat_eq_div]
    conv_rhs => rw [← Rat.num_div_den a, ← Rat.num_div_den b]
    push_cast [Int.cast_natAbs]
    rcases lt_or_gt_of_ne hbn with h | h
    · rw [Int.sign_eq_neg_one_of_neg h, abs_of_neg (show (b.num : ℚ) < 0 by exact_mod_cast h)]
      push_cast
      field_simp
      try ring
    · rw [Int.sign_eq_one_of_pos h, abs_of_pos (show (0 : ℚ) < (b.num : ℚ) by exact_mod_cast h)]
      push_cast
      field_simp
      try ring

theorem qsub_eq (a b : ℚ) : qsub a b = a - b := by
  rw [qsub, qadd_eq, qneg_eq, sub_eq_add_neg]

/-- `±d · 10^e` as an exact rational (value of a decimal literal). -/
def decValue (sgn : ℤ) (d : ℕ) (e : ℤ) : ℚ :=
  if 0 ≤ e then mkRat (sgn * d * 10 ^ e.toNat) 1
  else mkRat (sgn * d) (10 ^ (-e).toNat)

/-- Numeric value of a digit character in bases up to 16, or `none`. -/
def digitValB (b : ℕ) (c : Char) : Option ℕ :=
  let v : ℕ :=
    if '0' ≤ c ∧ c ≤ '9' then c.toNat - 48
    else if 'a' ≤ c ∧ c ≤ 'f' then c.toNat - 87
    else if 'A' ≤ c ∧ c ≤ 'F' then c.toNat - 55
    else 16
  if v < b then some v else none

/-- Value of a digit string in base `b` (digits assumed valid). -/
def natOfDigitsB (b : ℕ) (cs : List Char) : ℕ :=
  cs.foldl (fun n c => n * b + ((digitValB b c).getD 0)) 0

/-- Decimal digit run value. -/
def natOfDigits (cs : List Char) : ℕ := natOfDigitsB 10 cs

/-- Parse a full radix-`b` digit string (as after `0x`): every character a
digit of the base and at least one digit present. -/
def radixVal? (b : ℕ) (cs : List Char) : Option ℚ :=
  if cs ≠ [] ∧ cs.all (fun c => (digitValB b c).isSome) then
    some (mkRat (natOfDigitsB b cs) 1)
  else none

/-- JS whitespace trim (kernel-computable, unlike `String.trim`). -/
def jsTrim (s : String) : String :=
  String.mk (((s.data.dropWhile Char.isWhitespace).reverse.dropWhile
    Char.isWhitespace).reverse)

/-- Split a character list at every occurrence of `sep`
(`String.prototype.split` with a one-character separator). -/
def splitOnChar (sep : Char) : List Char → List (List Char)
  | [] => [[]]
  | c :: cs =>
    if c = sep then [] :: splitOnChar sep cs
    else
      match splitOnChar sep cs with
      | [] => [[c]]
      | g :: gs => (c :: g) :: gs

/-- Mantissa and decimal exponent of a JS decimal numeric literal
(`digits [. digits] [(e|E)[±]digits]`, at least one mantissa digit):
returns `(d, e)` with value `d · 10^e`. -/
def parseDecimalLit (cs : List Char) : Option (ℕ × ℤ) :=
  let ip := cs.takeWhile Char.isDigit
  let r1 := cs.dropWhile Char.isDigit
  let fpr2 : List Char × List Char :=
    match r1 with
    | '.' :: r => (r.takeWhile Char.isDigit, r.dropWhile Char.isDigit)
    | _ => ([], r1)
  let fp := fpr2.1
  let r2 := fpr2.2
  if ip = [] ∧ fp = [] then none
  else
    let d := natOfDigits (ip ++ fp)
    let e0 : ℤ := -(fp.length : ℤ)
    match r2 with
    | [] => some (d, e0)
    | 'e' :: r => parseExpPart d e0 r
    | 'E' :: r => parseExpPart d e0 r
    | _ => none
where
  parseExpPart (d : ℕ) (e0 : ℤ) (r : List Char) : Option (ℕ × ℤ) :=
    let sr : ℤ × List Char :=
      match r with
      | '+' :: r' => (1, r')
      | '-' :: r' => (-1, r')
      | r' => (1, r')
    let ed := sr.2.takeWhile Char.isDigit
    let rest := sr.2.dropWhile Char.isDigit
    if ed = [] ∨ rest ≠ [] then none
    else some (d, e0 + sr.1 * (natOfDigits ed : ℤ))

/-- JS `Number(string)`: trimmed; empty is `0`; `0x`/`0o`/`0b` radix
literals; otherwise an optionally signed decimal literal covering the whole
string; anything else is `NaN` (`none`).  `Infinity` is not representable in
the exact-rational idealisation and is also mapped to `none`. -/
def strToNumber (s : String) : Option ℚ :=
  let cs := (jsTrim s).data
  match cs with
  | [] => some 0
  | '0' :: 'x' :: r => radixVal? 16 r
  | '0' :: 'X' :: r => radixVal? 16 r
  | '0' :: 'o' :: r => radixVal? 8 r
  | '0' :: 'O' :: r => radixVal? 8 r
  | '0' :: 'b' :: r => radixVal? 2 r
  | '0' :: 'B' :: r => radixVal? 2 r
  | _ =>
    let sr : ℤ × List Char :=
      match cs with
      | '+' :: r => (1, r)
      | '-' :: r => (-1, r)
      | r => (1, r)
    if sr.2 = "Infinity".data then none
    else (parseDecimalLit sr.2).map (fun de => decValue sr.1 de.1 de.2)

/-- JS number-to-string for the exact-rational idealisation: `NaN` prints
`"NaN"`; integers print in decimal; finitely-representable fractions print
as plain decimals (JS shortest-roundtrip printing agrees with the exact
decimal under the idealisation); other rationals (unreachable from JS float
arithmetic) get a `num/den` placeholder that is never numeric and never
matches an ID regex.  Exponential display of huge magnitudes is not
modelled. -/
def numToStr : Option ℚ → String
  | none => "NaN"
  | some q =>
    if q.den = 1 then toString q.num
    else
      match (List.range 40).find? (fun k => 10 ^ k % q.den = 0) with
      | some k =>
        let sign := if q.num < 0 then "-" else ""
        let an := q.num.natAbs
        let ip : ℕ := an / q.den
        let fracDigits : ℕ := (an % q.den) * (10 ^ k / q.den)
        let ds := Nat.repr fracDigits
        let pad := String.mk (List.replicate (k - ds.length) '0')
        sign ++ Nat.repr ip ++ "." ++ pad ++ ds
      | none => toString q.num ++ "/" ++ Nat.repr q.den

mutual

/-- JS `String(v)` / `ToString` coercion.  Arrays join their elements with
commas (`null`/`undefined` elements become empty); plain objects print
`[object Object]`. -/
def jsToString : JVal → String
  | .undef => "undefined"
  | .null => "null"
  | .bool b => if b then "true" else "false"
  | .num q => numToStr q
  | .str s => s
  | .arr xs => jsJoin xs
  | .obj _ => "[object Object]"

/-- `Array.prototype.join(",")` over element values
(`null`/`undefined` elements become `""`). -/
def jsJoin : List JVal → String
  | [] => ""
  | [.undef] => ""
  | [.null] => ""
  | [v] => jsToString v
  | .undef :: vs => "," ++ jsJoin vs
  | .null :: vs => "," ++ jsJoin vs
  | v :: vs => jsToString v ++ "," ++ jsJoin vs

end

/-- JS `Number(v)` / `ToNumber` coercion (`none` = `NaN`).  Arrays convert
through their joined string form; plain objects are `NaN`. -/
def toNumber : JVal → Option ℚ
  | .undef => none
  | .null => some 0
  | .bool b => some (if b then mkRat 1 1 else 0)
  | .num q => q
  | .str s => strToNumber s
  | .arr xs => strToNumber (jsJoin xs)
  | .obj _ => none

/-- JS `parseInt(s)` (no radix argument): skip leading whitespace, optional
sign, optional `0x`/`0X` hex prefix, then the maximal digit prefix; `none`
(`NaN`) when no digit follows. -/
def parseIntJS (s : String) : Option ℤ :=
  let cs := s.data.dropWhile Char.isWhitespace
  let sr : ℤ × List Char :=
    match cs with
    | '+' :: r => (1, r)
    | '-' :: r => (-1, r)
    | r => (1, r)
  match sr.2 with
  | '0' :: 'x' :: r => parseIntDigits sr.1 16 r
  | '0' :: 'X' :: r => parseIntDigits sr.1 16 r
  | r => parseIntDigits sr.1 10 r
where
  parseIntDigits (sgn : ℤ) (b : ℕ) (cs : List Char) : Option ℤ :=
    let ds := cs.takeWhile (fun c => (digitValB b c).isSome)
    if ds = [] then none else some (sgn * (natOfDigitsB b ds : ℤ))

example : strToNumber "2.5" = some (mkRat 5 2) := by decide
example : strToNumber "" = some 0 := by decide
example : strToNumber " 6 " = some (mkRat 6 1) := by decide
example : strToNumber "abc" = none := by decide
example : strToNumber "1e3" = some (mkRat 1000 1) := by decide
example : parseIntJS " 12.9" = some 12 := by decide
example : parseIntJS "abc" = none := by decide
example : numToStr (some (mkRat 5 2)) = "2.5" := by decide
example : toNumber (.str "0x10") = some (mkRat 16 1) := by decide

/-! ### `JSON.parse` (strict JSON grammar) -/

/-- JSON whitespace. -/
def jsonWs (c : Char) : Bool := c = ' ' ∨ c = '\t' ∨ c = '\n' ∨ c = '\r'

/-- Skip JSON whitespace. -/
def skipWs (cs : List Char) : List Char := cs.dropWhile jsonWs

/-- Single-character JSON string escapes. -/
def jsonEsc : Char → Option Char
  | '"' => some '"'
  | '\\' => some '\\'
  | '/' => some '/'
  | 'b' => some (Char.ofNat 8)
  | 'f' => some (Char.ofNat 12)
  | 'n' => some '\n'
  | 'r' => some '\r'
  | 't' => some '\t'
  | _ => none

/-- Body of a JSON string literal (after the opening quote): returns the
decoded characters and the remainder after the closing quote.  Unescaped
control characters are rejected; `\uXXXX` decodes through `Char.ofNat`
(lone surrogates, which Lean `Char` cannot carry, fall to the
`Char.ofNat` default — unreachable from the repository's data). -/
def parseJStrChars : List Char → Option (List Char × List Char)
  | [] => none
  | '"' :: rest => some ([], rest)
  | '\\' :: 'u' :: h1 :: h2 :: h3 :: h4 :: rest =>
    if [h1, h2, h3, h4].all (fun c => (digitValB 16 c).isSome) then
      (parseJStrChars rest).map fun pr =>
        (Char.ofNat (natOfDigitsB 16 [h1, h2, h3, h4]) :: pr.1, pr.2)
    else none
  | '\\' :: e :: rest =>
    match jsonEsc e with
    | some c => (parseJStrChars rest).map fun pr => (c :: pr.1, pr.2)
    | none => none
  | c :: rest =>
    if c.toNat < 32 then none
    else (parseJStrChars rest).map fun pr => (c :: pr.1, pr.2)

/-- Tail of a JSON number after the integer part: optional fraction and
exponent; produces the value and the remainder. -/
def parseJNumTail (sgn : ℤ) (ip : ℕ) (cs : List Char) : Option (JVal × List Char) :=
  let fr : Option (List Char) × List Char :=
    match cs with
    | '.' :: r => (some (r.takeWhile Char.isDigit), r.dropWhile Char.isDigit)
    | _ => (none, cs)
  match fr.1 with
  | some [] => none
  | _ =>
    let fp := (fr.1).getD []
    let d : ℕ := ip * 10 ^ fp.length + natOfDigits fp
    let e0 : ℤ := -(fp.length : ℤ)
    match fr.2 with
    | 'e' :: r => parseJNumExp sgn d e0 r
    | 'E' :: r => parseJNumExp sgn d e0 r
    | r => some (.num (some (decValue sgn d e0)), r)
where
  parseJNumExp (sgn : ℤ) (d : ℕ) (e0 : ℤ) (r : List Char) : Option (JVal × List Char) :=
    let sr : ℤ × List Char :=
      match r with
      | '+' :: r' => (1, r')
      | '-' :: r' => (-1, r')
      | r' => (1, r')
    let ed := sr.2.takeWhile Char.isDigit
    if ed = [] then none
    else some (.num (some (decValue sgn d (e0 + sr.1 * (natOfDigits ed : ℤ)))),
      sr.2.dropWhile Char.isDigit)

/-- A JSON number literal: `-?(0|[1-9][0-9]*)(\.[0-9]+)?([eE][+-]?[0-9]+)?`. -/
def parseJNum (cs : List Char) : Option (JVal × List Char) :=
  let sr : ℤ × List Char :=
    match cs with
    | '-' :: r => (-1, r)
    | r => (1, r)
  match sr.2 with
  | '0' :: r => parseJNumTail sr.1 0 r
  | c :: _ =>
    if c.isDigit then
      parseJNumTail sr.1 (natOfDigits (sr.2.takeWhile Char.isDigit))
        (sr.2.dropWhile Char.isDigit)
    else none
  | [] => none

mutual

/-- One JSON value (leading whitespace allowed); fuel bounds recursion
depth; with fuel `≥` input length the parser is exact. -/
def parseJVal? : ℕ → List Char → Option (JVal × List Char)
  | 0, _ => none
  | fuel + 1, cs =>
    match skipWs cs with
    | [] => none
    | '{' :: rest =>
      match skipWs rest with
      | '}' :: r => some (.obj [], r)
      | r => (parseJMembers fuel r).map fun pr => (.obj pr.1, pr.2)
    | '[' :: rest =>
      match skipWs rest with
      | ']' :: r => some (.arr [], r)
      | r => (parseJItems fuel r).map fun pr => (.arr pr.1, pr.2)
    | '"' :: rest => (parseJStrChars rest).map fun pr => (.str (String.mk pr.1), pr.2)
    | 't' :: 'r' :: 'u' :: 'e' :: r => some (.bool true, r)
    | 'f' :: 'a' :: 'l' :: 's' :: 'e' :: r => some (.bool false, r)
    | 'n' :: 'u' :: 'l' :: 'l' :: r => some (.null, r)
    | c :: rest => parseJNum (c :: rest)

/-- Comma-separated JSON array items up to the closing bracket. -/
def parseJItems : ℕ → List Char → Option (List JVal × List Char)
  | 0, _ => none
  | fuel + 1, cs => do
    let (v, r) ← parseJVal? fuel cs
    match skipWs r with
    | ',' :: r' => (parseJItems fuel r').map fun pr => (v :: pr.1, pr.2)
    | ']' :: r' => some ([v], r')
    | _ => none

/-- Comma-separated JSON object members up to the closing brace. -/
def parseJMembers : ℕ → List Char → Option (List (String × JVal) × List Char)
  | 0, _ => none
  | fuel + 1, cs =>
    match skipWs cs with
    | '"' :: rest => do
      let (k, r1) ← parseJStrChars rest
      match skipWs r1 with
      | ':' :: r2 => do
        let (v, r3) ← parseJVal? fuel r2
        match skipWs r3 with
        | ',' :: r4 => (parseJMembers fuel r4).map fun pr => ((String.mk k, v) :: pr.1, pr.2)
        | '}' :: r4 => some ([(String.mk k, v)], r4)
        | _ => none
      | _ => none
    | _ => none

end

/-- `JSON.parse` on a string: a single JSON value spanning the whole input
(`none` models the thrown `SyntaxError`). -/
def jsonParse (s : String) : Option JVal :=
  match parseJVal? (2 * s.data.length + 2) s.data with
  | some (v, rest) => if skipWs rest = [] then some v else none
  | none => none

/-- `JSON.parse(x)` on an arbitrary value: the argument is coerced to a
string first (so `JSON.parse(5)` parses `"5"`, `JSON.parse(undefined)`
throws). -/
def jsonParseVal (v : JVal) : Option JVal := jsonParse (jsToString v)

example : jsonParse "[1, 2]" = some (.arr [.num (some (mkRat 1 1)), .num (some (mkRat 2 1))]) := by
  decide
example : jsonParse "5" = some (.num (some (mkRat 5 1))) := by decide
example : jsonParse "1,2" = none := by decide
example : jsonParse "not json" = none := by decide
example : (jsonParse "\x7b\x22a\x22: 1\x7d").isSome = true := by decide
example : jsonParse "[-1]" = some (.arr [.num (some (mkRat (-1) 1))]) := by decide
example : (jsonParse "[\x7b]").isNone = true := by decide
example : jsonParse "  true " = some (.bool true) := by decide
example : jsonParseVal (.num (some (mkRat 5 2))) = some (.num (some (mkRat 5 2))) := by decide
example : jsonParseVal .undef = none := by decide
example : jsonParse "01" = none := by decide

/-! ## Field parsers of the embedded program (`validation.ts`) -/

/-- Elements kept by `parsed.filter(p => typeof p === 'number' && p > 0)`
(`NaN` fails `p > 0` and is dropped). -/
def posNumsOf (xs : List JVal) : List ℚ :=
  xs.filterMap fun v =>
    match v with
    | .num (some q) => if 0 < q then some q else none
    | _ => none

/-- `Array.from({length: b - a + 1}, (_, i) => a + i)`: the integers
`a, …, b` (as JS numbers). -/
def rangeList (a b : ℤ) : List ℚ :=
  (List.range (b - a + 1).toNat).map fun i => mkRat (a + i) 1

/-- `parsePhases(phaseStr)` from `validation.ts`.  The `try` block runs
`JSON.parse(phaseStr)` (argument coerced to string); on success an array is
filtered to its positive numbers and anything else returns `[]`.  Only when
`JSON.parse` throws does the `catch` branch run `phaseStr.includes('-')` and
the range/comma parsing, which is a `TypeError` (modelled `.error ()`) when
`phaseStr` is not a string (arrays reach `.split`, which they lack). -/
def parsePhasesJ (phaseStr : JVal) : Except Unit (List ℚ) :=
  match jsonParseVal phaseStr with
  | some (.arr xs) => .ok (posNumsOf xs)
  | some _ => .ok []
  | none =>
    match phaseStr with
    | .str s =>
      if s.data.contains '-' then
        match (splitOnChar '-' s.data).map
            (fun cs => parseIntJS (jsTrim (String.mk cs))) with
        | some a :: some b :: _ =>
          if 0 < a ∧ a ≤ b then .ok (rangeList a b) else .ok []
        | _ => .ok []
      else
        let phases := (splitOnChar ',' s.data).map
          fun cs => parseIntJS (jsTrim (String.mk cs))
        if phases.all fun p =>
            match p with
            | some v => decide (0 < v)
            | none => false
        then .ok (phases.map fun p => mkRat (p.getD 0) 1)
        else .ok []
    | _ => .error ()

/-- `(x || '').split(',').map(s => s.trim()).filter(Boolean)`: comma split,
trim, drop empties.  Calling `.split` on a truthy non-string value is a
`TypeError`. -/
def splitTags (v : JVal) : Except Unit (List String) :=
  match (if truthy v then v else .str "") with
  | .str s =>
    .ok (((splitOnChar ',' s.data).map fun cs =>
      jsTrim (String.mk cs)).filter fun t => t ≠ "")
  | _ => .error ()

/-- `/^X\d+$/.test(v)` for a letter `X` (argument coerced to string). -/
def idFormat (c0 : Char) (v : JVal) : Bool :=
  match (jsToString v).data with
  | c :: rest => c = c0 ∧ rest ≠ [] ∧ rest.all Char.isDigit
  | [] => false

instance {ε α : Type} [DecidableEq ε] [DecidableEq α] : DecidableEq (Except ε α) :=
  fun a b =>
    match a, b with
    | .ok x, .ok y =>
      match decEq x y with
      | isTrue h => isTrue (h ▸ rfl)
      | isFalse h => isFalse fun e => h (Except.ok.inj e)
    | .error x, .error y =>
      match decEq x y with
      | isTrue h => isTrue (h ▸ rfl)
      | isFalse h => isFalse fun e => h (Except.error.inj e)
    | .ok _, .error _ => isFalse nofun
    | .error _, .ok _ => isFalse nofun

example : parsePhasesJ (.str "2-4") = .ok [mkRat 2 1, mkRat 3 1, mkRat 4 1] := by decide
example : parsePhasesJ (.str "5") = .ok [] := by decide
example : parsePhasesJ (.str "1,2") = .ok [mkRat 1 1, mkRat 2 1] := by decide
example : parsePhasesJ (.str "abc") = .ok [] := by decide
example : parsePhasesJ (.str "[1,2,-3]") = .ok [mkRat 1 1, mkRat 2 1] := by decide
example : parsePhasesJ .undef = .error () := by decide
example : splitTags (.str " a, ,b ") = .ok ["a", "b"] := by decide
example : splitTags (.num (some (mkRat 7 1))) = .error () := by decide
example : splitTags .undef = .ok [] := by decide
example : idFormat 'T' (.str "T17") = true := by decide
example : idFormat 'T' (.str "TX") = false := by decide

/-! ## Validation issues -/

/-- The three entity tables. -/
inductive Entity where
  | clients : Entity
  | workers : Entity
  | tasks : Entity
deriving DecidableEq

/-- Issue severity. -/
inductive Sev where
  | error : Sev
  | warning : Sev
deriving DecidableEq

/-- The issue message, one constructor per template string of the source
(interpolated values carried structurally, which keeps every distinction the
string templates make). -/
inductive Msg where
  | missingColumn (col : String) : Msg
  | duplicateId (idCol : String) (v : JVal) : Msg
  | slotsNotArray : Msg
  | slotsNotPositive : Msg
  | slotsMalformed : Msg
  | priorityRange : Msg
  | durationRange : Msg
  | maxLoadRange : Msg
  | badAttributesJSON : Msg
  | unknownTaskRef (taskId : String) : Msg
  | invalidTaskIdFormat (v : JVal) : Msg
  | overload (maxLoad : Option ℚ) (slots : ℕ) : Msg
  | saturation (phase : JVal) (totalDuration totalSlots : Option ℚ) : Msg
  | uncoveredSkills (skills : List String) : Msg
  | maxConcurrentExceeds (maxC : Option ℚ) (qualified : ℕ) : Msg
  | invalidPreferredPhases : Msg
  | invalidGroupTag (v : JVal) : Msg
  | emptyClientName : Msg
  | invalidWorkerIdFormat (v : JVal) : Msg
  | invalidClientIdFormat (v : JVal) : Msg
deriving DecidableEq

/-- One validation issue (`ValidationError` in the source). -/
structure VIssue where
  entity : Entity
  rowIndex : Option ℕ
  column : Option String
  message : Msg
  severity : Sev
deriving DecidableEq

/-- `rows.forEach((row, i) => …)` collecting issues, from index `n`. -/
def forEachIssuesGo (f : ℕ → Row → List VIssue) : ℕ → List Row → List VIssue
  | _, [] => []
  | i, row :: rest => f i row ++ forEachIssuesGo f (i + 1) rest

/-- `rows.forEach((row, i) => …)` collecting issues. -/
def forEachIssues (rows : List Row) (f : ℕ → Row → List VIssue) : List VIssue :=
  forEachIssuesGo f 0 rows

/-- `rows.forEach` whose callback may throw, from index `n`. -/
def forEachIssuesMGo (f : ℕ → Row → Except Unit (List VIssue)) :
    ℕ → List Row → Except Unit (List VIssue)
  | _, [] => .ok []
  | i, row :: rest => do
    let es ← f i row
    let rest' ← forEachIssuesMGo f (i + 1) rest
    pure (es ++ rest')

/-- `rows.forEach` whose callback may throw. -/
def forEachIssuesM (rows : List Row) (f : ℕ → Row → Except Unit (List VIssue)) :
    Except Unit (List VIssue) :=
  forEachIssuesMGo f 0 rows

/-- `table && table.length > 0` guard around a check. -/
def whenNonEmpty (t : Option (List Row)) (f : List Row → List VIssue) : List VIssue :=
  match t with
  | some rows => if rows = [] then [] else f rows
  | none => []

/-- Monadic `table && table.length > 0` guard. -/
def whenNonEmptyM (t : Option (List Row)) (f : List Row → Except Unit (List VIssue)) :
    Except Unit (List VIssue) :=
  match t with
  | some rows => if rows = [] then .ok [] else f rows
  | none => .ok []

/-- `t1 && t1.length > 0 && t2 && t2.length > 0` guard. -/
def whenBoth (t1 t2 : Option (List Row)) (f : List Row → List Row → List VIssue) :
    List VIssue :=
  match t1, t2 with
  | some r1, some r2 => if r1 = [] ∨ r2 = [] then [] else f r1 r2
  | _, _ => []

/-- Monadic two-table guard. -/
def whenBothM (t1 t2 : Option (List Row))
    (f : List Row → List Row → Except Unit (List VIssue)) : Except Unit (List VIssue) :=
  match t1, t2 with
  | some r1, some r2 => if r1 = [] ∨ r2 = [] then .ok [] else f r1 r2
  | _, _ => .ok []

/-! ## The validation checks -/

/-- Required columns of the clients table. -/
def requiredClientCols : List String :=
  ["ClientID", "ClientName", "PriorityLevel", "RequestedTaskIDs", "GroupTag",
    "AttributesJSON"]

/-- Required columns of the workers table. -/
def requiredWorkerCols : List String :=
  ["WorkerID", "WorkerName", "Skills", "AvailableSlots", "MaxLoadPerPhase",
    "WorkerGroup", "QualificationLevel"]

/-- Required columns of the tasks table. -/
def requiredTaskCols : List String :=
  ["TaskID", "TaskName", "Category", "Duration", "RequiredSkills",
    "PreferredPhases", "MaxConcurrent"]

/-- Check 1: required-column presence, tested against the first row's keys. -/
def missingColsCheck (ent : Entity) (cols : List String) (rows : List Row) :
    List VIssue :=
  cols.flatMap fun col =>
    if ((rows.head?.getD []).map Prod.fst).contains col then []
    else [⟨ent, none, some col, .missingColumn col, .error⟩]

/-- Check 2 worker: the `seen` set fold (`seen` holds the id cells of the
rows already visited; membership is SameValueZero, structural here). -/
def dupIdGo (ent : Entity) (idCol : String) :
    List JVal → ℕ → List Row → List VIssue
  | _, _, [] => []
  | seen, i, row :: rest =>
    let v := getCell row idCol
    (if seen.contains v then
      [⟨ent, some i, some idCol, .duplicateId idCol v, .error⟩]
    else [])
      ++ dupIdGo ent idCol (v :: seen) (i + 1) rest

/-- Check 2: duplicate primary keys. -/
def dupIdCheck (ent : Entity) (idCol : String) (rows : List Row) : List VIssue :=
  dupIdGo ent idCol [] 0 rows

/-- Check 3: `AvailableSlots` must be a JSON array of positive numbers. -/
def slotsCheck (rows : List Row) : List VIssue :=
  forEachIssues rows fun i row =>
    match jsonParseVal (getCell row "AvailableSlots") with
    | some (.arr xs) =>
      if xs.any fun s =>
          match s with
          | .num (some q) => decide (q ≤ 0)
          | .num none => false
          | _ => true
      then [⟨.workers, some i, some "AvailableSlots", .slotsNotPositive, .error⟩]
      else []
    | some _ => [⟨.workers, some i, some "AvailableSlots", .slotsNotArray, .error⟩]
    | none => [⟨.workers, some i, some "AvailableSlots", .slotsMalformed, .error⟩]

/-- `isNaN(val) || val < 1 || val > 5` for `val = Number(cell)`. -/
def priorityBad (v : JVal) : Bool :=
  match toNumber v with
  | none => true
  | some q => decide (q < 1) || decide (5 < q)

/-- `isNaN(val) || val < 1` for `val = Number(cell)`. -/
def geOneBad (v : JVal) : Bool :=
  match toNumber v with
  | none => true
  | some q => decide (q < 1)

/-- Check 4 clients: `PriorityLevel` within `[1,5]`. -/
def priorityCheck (rows : List Row) : List VIssue :=
  forEachIssues rows fun i row =>
    if priorityBad (getCell row "PriorityLevel") then
      [⟨.clients, some i, some "PriorityLevel", .priorityRange, .error⟩]
    else []

/-- Check 4 tasks: `Duration ≥ 1`. -/
def durationCheck (rows : List Row) : List VIssue :=
  forEachIssues rows fun i row =>
    if geOneBad (getCell row "Duration") then
      [⟨.tasks, some i, some "Duration", .durationRange, .error⟩]
    else []

/-- Check 4 workers: `MaxLoadPerPhase ≥ 1`. -/
def maxLoadCheck (rows : List Row) : List VIssue :=
  forEachIssues rows fun i row =>
    if geOneBad (getCell row "MaxLoadPerPhase") then
      [⟨.workers, some i, some "MaxLoadPerPhase", .maxLoadRange, .error⟩]
    else []

/-- Check 5: `AttributesJSON`, when truthy and a string, must parse. -/
def attrsCheck (rows : List Row) : List VIssue :=
  forEachIssues rows fun i row =>
    match getCell row "AttributesJSON" with
    | .str s =>
      if s ≠ "" ∧ (jsonParse s).isNone then
        [⟨.clients, some i, some "AttributesJSON", .badAttributesJSON, .error⟩]
      else []
    | _ => []

/-- Check 6: every requested task id must occur among the tasks' `TaskID`
cells (strict equality against the raw cells). -/
def refsCheck (clients tasks : List Row) : Except Unit (List VIssue) :=
  let taskIDs := tasks.map fun t => getCell t "TaskID"
  forEachIssuesM clients fun i row => do
    let requested ← splitTags (getCell row "RequestedTaskIDs")
    pure (requested.flatMap fun tid =>
      if taskIDs.contains (.str tid) then []
      else [⟨.clients, some i, some "RequestedTaskIDs", .unknownTaskRef tid, .error⟩])

/-- Check 6.5: requested task ids must match `/^T\d+$/`. -/
def taskIdFormatRefCheck (clients : List Row) : Except Unit (List VIssue) :=
  forEachIssuesM clients fun i row => do
    let requested ← splitTags (getCell row "RequestedTaskIDs")
    pure (requested.flatMap fun tid =>
      if idFormat 'T' (.str tid) then []
      else [⟨.clients, some i, some "RequestedTaskIDs",
        .invalidTaskIdFormat (.str tid), .error⟩])

/-- JS `m > n` for a coerced number against a length (`NaN > n` is false). -/
def optGtNat (m : Option ℚ) (n : ℕ) : Bool :=
  match m with
  | some q => decide ((mkRat n 1) < q)
  | none => false

/-- JS `a > b` on two coerced numbers (false when either is `NaN`). -/
def optGt (a b : Option ℚ) : Bool :=
  match a, b with
  | some x, some y => decide (y < x)
  | _, _ => false

/-- `reduce((sum, x) => sum + Number(x), 0)` (`NaN` poisons the sum). -/
def sumNum (l : List (Option ℚ)) : Option ℚ :=
  l.foldl (fun acc v =>
    match acc, v with
    | some a, some b => some (qadd a b)
    | _, _ => none) (some 0)

/-- Check 8: `MaxLoadPerPhase` exceeding the parsed slots length warns. -/
def overloadCheck (rows : List Row) : List VIssue :=
  forEachIssues rows fun i row =>
    match jsonParseVal (getCell row "AvailableSlots") with
    | some (.arr xs) =>
      if optGtNat (toNumber (getCell row "MaxLoadPerPhase")) xs.length then
        [⟨.workers, some i, some "MaxLoadPerPhase",
          .overload (toNumber (getCell row "MaxLoadPerPhase")) xs.length, .warning⟩]
      else []
    | _ => []

/-- `preferredPhases.includes(phase)` (SameValueZero; the parsed phases are
numbers, so only numeric `phase` values can match). -/
def phaseMemQ (p : JVal) (l : List ℚ) : Bool :=
  match p with
  | .num (some q) => l.contains q
  | _ => false

/-- Check 9 preamble: insertion-ordered set of all elements of all workers'
parsed `AvailableSlots` arrays. -/
def allWorkerPhases (workers : List Row) : List JVal :=
  workers.foldl (fun acc w =>
    match jsonParseVal (getCell w "AvailableSlots") with
    | some (.arr xs) => xs.foldl (fun a s => if a.contains s then a else a ++ [s]) acc
    | _ => acc) []

/-- Does a worker's parsed slots array contain phase `p`? -/
def workerInPhase (p : JVal) (w : Row) : Bool :=
  match jsonParseVal (getCell w "AvailableSlots") with
  | some (.arr xs) => xs.contains p
  | _ => false

/-- Total `Number(Duration)` over tasks whose parsed `PreferredPhases`
contains `p` (the per-task parse may throw). -/
def phaseTaskDuration (tasks : List Row) (p : JVal) : Except Unit (Option ℚ) := do
  let tasksInPhase ← tasks.foldlM (fun acc t => do
    let ph ← parsePhasesJ (getCell t "PreferredPhases")
    pure (if phaseMemQ p ph then acc ++ [t] else acc)) []
  pure (sumNum (tasksInPhase.map fun t => toNumber (getCell t "Duration")))

/-- Total `Number(MaxLoadPerPhase)` over workers whose slots contain `p`. -/
def phaseWorkerSlots (workers : List Row) (p : JVal) : Option ℚ :=
  sumNum ((workers.filter (workerInPhase p)).map fun w =>
    toNumber (getCell w "MaxLoadPerPhase"))

/-- Check 9 per-phase loop: one warning per oversaturated phase, in phase
order. -/
def perPhaseIssues (workers tasks : List Row) : List JVal → Except Unit (List VIssue)
  | [] => .ok []
  | p :: ps => do
    let totalDuration ← phaseTaskDuration tasks p
    let totalSlots := phaseWorkerSlots workers p
    let rest ← perPhaseIssues workers tasks ps
    pure ((if optGt totalDuration totalSlots then
      [⟨.tasks, none, some "PreferredPhases", .saturation p totalDuration totalSlots,
        .warning⟩]
    else []) ++ rest)

/-- Check 9: phase-slot saturation. -/
def saturationCheck (workers tasks : List Row) : Except Unit (List VIssue) :=
  perPhaseIssues workers tasks (allWorkerPhases workers)

/-- Check 10: every required skill must be covered by some worker. -/
def skillCoverageCheck (workers tasks : List Row) : Except Unit (List VIssue) := do
  let skillsList ← workers.mapM fun w => splitTags (getCell w "Skills")
  let allSkills := skillsList.flatten
  forEachIssuesM tasks fun i t => do
    let req ← splitTags (getCell t "RequiredSkills")
    let uncovered := req.filter fun sk => ¬ allSkills.contains sk
    pure (if uncovered = [] then []
      else [⟨.tasks, some i, some "RequiredSkills", .uncoveredSkills uncovered,
        .error⟩])

/-- Check 11: `MaxConcurrent` exceeding the qualified-worker count warns. -/
def maxConcurrencyCheck (workers tasks : List Row) : Except Unit (List VIssue) :=
  forEachIssuesM tasks fun i t => do
    let req ← splitTags (getCell t "RequiredSkills")
    let qualified ← workers.foldlM (fun acc w => do
      let ws ← splitTags (getCell w "Skills")
      pure (if req.all (fun sk => ws.contains sk) then acc ++ [w] else acc)) []
    let maxC := toNumber (getCell t "MaxConcurrent")
    pure (if optGtNat maxC qualified.length then
      [⟨.tasks, some i, some "MaxConcurrent",
        .maxConcurrentExceeds maxC qualified.length, .warning⟩]
    else [])

/-- Check 12: `PreferredPhases` must parse to a non-empty phase list. -/
def preferredPhasesCheck (tasks : List Row) : Except Unit (List VIssue) :=
  forEachIssuesM tasks fun i t => do
    let phases ← parsePhasesJ (getCell t "PreferredPhases")
    pure (if phases = [] then
      [⟨.tasks, some i, some "PreferredPhases", .invalidPreferredPhases, .error⟩]
    else [])

/-- Check 13.1: `GroupTag`, when truthy, should be GroupA/GroupB/GroupC. -/
def groupTagCheck (rows : List Row) : List VIssue :=
  forEachIssues rows fun i row =>
    if truthy (getCell row "GroupTag") ∧
        ¬ [JVal.str "GroupA", .str "GroupB", .str "GroupC"].contains
          (getCell row "GroupTag") then
      [⟨.clients, some i, some "GroupTag", .invalidGroupTag (getCell row "GroupTag"),
        .warning⟩]
    else []

/-- Check 13.2: `ClientName` must be non-empty after trimming (`.trim()` on
a truthy non-string is a `TypeError`). -/
def clientNameCheck (rows : List Row) : Except Unit (List VIssue) :=
  forEachIssuesM rows fun i row =>
    if ¬ truthy (getCell row "ClientName") then
      .ok [⟨.clients, some i, some "ClientName", .emptyClientName, .error⟩]
    else
      match getCell row "ClientName" with
      | .str s =>
        .ok (if (jsTrim s).data.length = 0 then
          [⟨.clients, some i, some "ClientName", .emptyClientName, .error⟩]
        else [])
      | _ => .error ()

/-- Checks 13.3–13.5: primary-key format per entity. -/
def idFormatCheck (ent : Entity) (c0 : Char) (idCol : String) (mk : JVal → Msg)
    (rows : List Row) : List VIssue :=
  forEachIssues rows fun i row =>
    if idFormat c0 (getCell row idCol) then []
    else [⟨ent, some i, some idCol, mk (getCell row idCol), .error⟩]

/-- `validateData(clients, workers, tasks)` from `validation.ts`: the full
check battery in source order; `.error ()` models an uncaught exception
escaping the function (which loses all issues). -/
def validateDataE (clients workers tasks : Option (List Row)) :
    Except Unit (List VIssue) := do
  let e1c := whenNonEmpty clients (missingColsCheck .clients requiredClientCols)
  let e1w := whenNonEmpty workers (missingColsCheck .workers requiredWorkerCols)
  let e1t := whenNonEmpty tasks (missingColsCheck .tasks requiredTaskCols)
  let e2c := whenNonEmpty clients (dupIdCheck .clients "ClientID")
  let e2w := whenNonEmpty workers (dupIdCheck .workers "WorkerID")
  let e2t := whenNonEmpty tasks (dupIdCheck .tasks "TaskID")
  let e3 := whenNonEmpty workers slotsCheck
  let e4c := whenNonEmpty clients priorityCheck
  let e4t := whenNonEmpty tasks durationCheck
  let e4w := whenNonEmpty workers maxLoadCheck
  let e5 := whenNonEmpty clients attrsCheck
  let e6 ← whenBothM clients tasks refsCheck
  let e65 ← whenNonEmptyM clients taskIdFormatRefCheck
  let e8 := whenNonEmpty workers overloadCheck
  let e9 ← whenBothM workers tasks saturationCheck
  let e10 ← whenBothM workers tasks skillCoverageCheck
  let e11 ← whenBothM workers tasks maxConcurrencyCheck
  let e12 ← whenNonEmptyM tasks preferredPhasesCheck
  let e131 := whenNonEmpty clients groupTagCheck
  let e132 ← whenNonEmptyM clients clientNameCheck
  let e133 := whenNonEmpty tasks (idFormatCheck .tasks 'T' "TaskID" .invalidTaskIdFormat)
  let e134 := whenNonEmpty workers (idFormatCheck .workers 'W' "WorkerID" .invalidWorkerIdFormat)
  let e135 := whenNonEmpty clients (idFormatCheck .clients 'C' "ClientID" .invalidClientIdFormat)
  pure (e1c ++ e1w ++ e1t ++ e2c ++ e2w ++ e2t ++ e3 ++ e4c ++ e4t ++ e4w ++ e5 ++
    e6 ++ e65 ++ e8 ++ e9 ++ e10 ++ e11 ++ e12 ++ e131 ++ e132 ++ e133 ++ e134 ++ e135)

example : validateDataE none none (some [[]]) = .error () := by decide
example : validateDataE none none none = .ok [] := by decide

/-! ## The allocation scoring engine (`generateAllocationPreview`) -/

/-- The five priority-weight dials of the UI state. -/
structure Weights where
  priorityLevel : ℚ
  requestedTaskFulfillment : ℚ
  fairness : ℚ
  cost : ℚ
  workload : ℚ
deriving DecidableEq

/-- One structured reason fragment.  The source renders
`toFixed(2)`-formatted strings; the exact values are carried instead, which
keeps every distinction the strings make. -/
inductive Reason where
  | priority (level : ℚ) (pts : ℚ) : Reason
  | fairness (pts : ℚ) : Reason
  | workload (pts : Option ℚ) : Reason
  | workloadInvalid : Reason
  | cost (pts : ℚ) : Reason
deriving DecidableEq

/-- One allocation candidate; `client`/`task`/`worker` hold the raw
`ClientName`/`TaskName`/`WorkerName` cells as pushed by the source. -/
structure Alloc where
  client : JVal
  task : JVal
  worker : JVal
  score : Option ℚ
  reason : List Reason
deriving DecidableEq

/-- `Number(x) || 1`: the fallback triggers exactly on `NaN` and `0`. -/
def numOr1 (v : JVal) : ℚ :=
  match toNumber v with
  | none => 1
  | some q => if q = 0 then 1 else q

/-- JS strict equality `===` (`NaN === NaN` is false; composite values are
compared structurally here, standing in for reference equality). -/
def jsStrictEq (a b : JVal) : Bool :=
  match a, b with
  | .num none, _ => false
  | _, .num none => false
  | x, y => x == y

/-- NaN-propagating addition on JS numbers. -/
def optAdd (a b : Option ℚ) : Option ℚ :=
  match a, b with
  | some x, some y => some (qadd x y)
  | _, _ => none

/-- NaN-propagating multiplication on JS numbers. -/
def optMul (a b : Option ℚ) : Option ℚ :=
  match a, b with
  | some x, some y => some (qmul x y)
  | _, _ => none

/-- NaN-propagating division on JS numbers (no division by zero occurs in
the embedded code). -/
def optDiv (a b : Option ℚ) : Option ℚ :=
  match a, b with
  | some x, some y => some (qdiv x y)
  | _, _ => none

/-- NaN-propagating subtraction on JS numbers. -/
def optSub (a b : Option ℚ) : Option ℚ :=
  match a, b with
  | some x, some y => some (qsub x y)
  | _, _ => none

/-- The `.length` property read inside the workload `try` block:
`null.length` throws (`.error`, caught by the `catch`); arrays and strings
have lengths; objects may carry a `length` field; numbers and booleans give
`undefined`. -/
def getLengthVal : JVal → Except Unit JVal
  | .null => .error ()
  | .undef => .error ()
  | .arr xs => .ok (.num (some (mkRat xs.length 1)))
  | .str s => .ok (.num (some (mkRat s.data.length 1)))
  | .obj fs => .ok (getCell fs "length")
  | _ => .ok (.undef)

/-- The workload term of the score: the `try` block
`JSON.parse(worker.AvailableSlots)` then
`(availableSlots.length / 10) * (weights.workload / 100)`; the `catch`
(parse throws, or the `.length` read throws on `null`) contributes `0` and
the invalid-slots reason. -/
def workloadPart (slotsCell : JVal) (wWorkload : ℚ) : Option ℚ × Reason :=
  match jsonParseVal slotsCell with
  | none => (some 0, .workloadInvalid)
  | some v =>
    match getLengthVal v with
    | .error _ => (some 0, .workloadInvalid)
    | .ok lv =>
      let t := optMul (optDiv (toNumber lv) (some (mkRat 10 1)))
        (some (qdiv wWorkload (mkRat 100 1)))
      (t, .workload t)

/-- Score one qualified worker against the allocations pushed so far
(the body of the innermost `qualifiedWorkers.forEach`). -/
def scoreWorker (priorityLevel : ℚ) (client task : Row) (prior : List Alloc)
    (worker : Row) (w : Weights) : Alloc :=
  let priorityScore := qmul priorityLevel (qdiv w.priorityLevel (mkRat 100 1))
  let currentLoad :=
    (prior.filter fun a => jsStrictEq a.worker (getCell worker "WorkerID")).length
  let fairnessScore :=
    qmul (qdiv (mkRat 1 1) (mkRat (currentLoad + 1) 1)) (qdiv w.fairness (mkRat 100 1))
  let wl := workloadPart (getCell worker "AvailableSlots") w.workload
  let qualificationLevel := numOr1 (getCell worker "QualificationLevel")
  let costScore := qmul (qdiv (mkRat 1 1) qualificationLevel) (qdiv w.cost (mkRat 100 1))
  { client := getCell client "ClientName"
    task := getCell task "TaskName"
    worker := getCell worker "WorkerName"
    score := optAdd (optAdd (optAdd (optAdd (some 0) (some priorityScore))
      (some fairnessScore)) wl.1) (some costScore)
    reason := [.priority priorityLevel priorityScore, .fairness fairnessScore,
      wl.2, .cost costScore] }

/-- The workers whose skill set is a superset of the required skills
(`workers.filter(…)`; the per-worker `Skills` split may throw). -/
def qualifiedWorkersOf (workers : List Row) (requiredSkills : List String) :
    Except Unit (List Row) :=
  workers.foldlM (fun qs worker => do
    let ws ← splitTags (getCell worker "Skills")
    pure (if requiredSkills.all (fun sk => ws.contains sk) then qs ++ [worker]
      else qs)) []

/-- The body of `requestedTasks.forEach(taskId => …)`: resolve the task,
find qualified workers, and append one scored candidate per qualified
worker. -/
def taskStep (workers tasks : List Row) (w : Weights) (client : Row)
    (priorityLevel : ℚ) (acc2 : List Alloc) (taskId : String) :
    Except Unit (List Alloc) :=
  match tasks.find? (fun t => jsStrictEq (getCell t "TaskID") (.str taskId)) with
  | none => pure acc2
  | some task => do
    let requiredSkills ← splitTags (getCell task "RequiredSkills")
    let qualifiedWorkers ← qualifiedWorkersOf workers requiredSkills
    if qualifiedWorkers = [] then pure acc2
    else
      pure (qualifiedWorkers.foldl (fun acc3 worker =>
        acc3 ++ [scoreWorker priorityLevel client task acc3 worker w]) acc2)

/-- The body of `clients.forEach(client => …)`. -/
def clientPass (workers tasks : List Row) (w : Weights) (acc : List Alloc)
    (client : Row) : Except Unit (List Alloc) := do
  let requestedTasks ← splitTags (getCell client "RequestedTaskIDs")
  let priorityLevel := numOr1 (getCell client "PriorityLevel")
  requestedTasks.foldlM (taskStep workers tasks w client priorityLevel) acc

/-- The full client → requested-task → qualified-worker enumeration,
accumulating the `allocations` list (several string-method calls may
throw). -/
def genCandidates (clients workers tasks : List Row) (w : Weights) :
    Except Unit (List Alloc) :=
  clients.foldlM (clientPass workers tasks w) []

/-- Value of the sort comparator `(a, b) => b.score - a.score`
(`SortCompare` maps a `NaN` comparator result to `+0`). -/
def jsCmpVal (a b : Alloc) : ℚ :=
  match optSub b.score a.score with
  | some d => d
  | none => 0

/-- Stable insertion: `x` goes before the first element it strictly
precedes under the comparator (ties keep arrival order, as a stable
comparator sort does). -/
def stableInsert (x : Alloc) : List Alloc → List Alloc
  | [] => [x]
  | y :: ys => if jsCmpVal x y ≤ 0 then x :: y :: ys else y :: stableInsert x ys

/-- Stable sort by the JS comparator (descending score). -/
def stableSortAllocs : List Alloc → List Alloc
  | [] => []
  | x :: xs => stableInsert x (stableSortAllocs xs)

/-- `generateAllocationPreview()`: empty result when any table is
`null`, otherwise the scored candidates sorted by score descending and
truncated to the top 20. -/
def generateAllocationPreview (clients workers tasks : Option (List Row))
    (w : Weights) : Except Unit (List Alloc) :=
  match clients, workers, tasks with
  | some cs, some ws, some ts => do
    let allocations ← genCandidates cs ws ts w
    pure ((stableSortAllocs allocations).take 20)
  | _, _, _ => .ok []

/-- The weight vector with every dial at its initial value 5. -/
def weights5 : Weights :=
  { priorityLevel := mkRat 5 1, requestedTaskFulfillment := mkRat 5 1,
    fairness := mkRat 5 1, cost := mkRat 5 1, workload := mkRat 5 1 }

/-- A worker row used by the concrete scenarios. -/
def workerW1 : Row :=
  [("WorkerID", .str "W1"), ("WorkerName", .str "Alice"),
    ("Skills", .str "python"), ("AvailableSlots", .str "[1,2,3]"),
    ("MaxLoadPerPhase", .str "2"), ("WorkerGroup", .str "G"),
    ("QualificationLevel", .str "1")]

/-- A task row used by the concrete scenarios. -/
def taskT1 : Row :=
  [("TaskID", .str "T1"), ("TaskName", .str "Build"), ("Category", .str "c"),
    ("Duration", .str "2"), ("RequiredSkills", .str "python"),
    ("PreferredPhases", .str "1-2"), ("MaxConcurrent", .str "1")]

/-- A client row requesting `T1` twice (same worker scored twice). -/
def clientC1TwiceT1 : Row :=
  [("ClientID", .str "C1"), ("ClientName", .str "Acme"),
    ("PriorityLevel", .str "5"), ("RequestedTaskIDs", .str "T1,T1"),
    ("GroupTag", .str "GroupA"), ("AttributesJSON", .str "\x7b\x7d")]

example :
    (generateAllocationPreview (some [clientC1TwiceT1]) (some [workerW1])
      (some [taskT1]) weights5).map (fun l => l.map Alloc.score) =
    .ok [some (mkRat 73 200), some (mkRat 73 200)] := by decide

/-! ## Infrastructure lemmas -/

theorem except_bind_ok {α β : Type} {x : Except Unit α} {f : α → Except Unit β}
    {b : β} : (x >>= f) = .ok b ↔ ∃ a, x = .ok a ∧ f a = .ok b := by
  cases x with
  | error e => simp [Bind.bind, Except.bind]
  | ok a => simp [Bind.bind, Except.bind]

theorem mem_forEachIssuesGo {f : ℕ → Row → List VIssue} :
    ∀ {n rows e}, e ∈ forEachIssuesGo f n rows → ∃ j r, e ∈ f j r := by
  intro n rows
  induction rows generalizing n with
  | nil => intro e h; simp [forEachIssuesGo] at h
  | cons row rest ih =>
    intro e h
    simp only [forEachIssuesGo, List.mem_append] at h
    rcases h with h | h
    · exact ⟨_, _, h⟩
    · exact ih h

theorem mem_forEachIssuesMGo {f : ℕ → Row → Except Unit (List VIssue)} :
    ∀ {n rows es e}, forEachIssuesMGo f n rows = .ok es → e ∈ es →
      ∃ j r es', f j r = .ok es' ∧ e ∈ es' := by
  intro n rows
  induction rows generalizing n with
  | nil =>
    intro es e h he
    simp only [forEachIssuesMGo] at h
    cases h
    simp at he
  | cons row rest ih =>
    intro es e h he
    simp only [forEachIssuesMGo] at h
    rcases except_bind_ok.mp h with ⟨es1, h1, h2⟩
    rcases except_bind_ok.mp h2 with ⟨es2, h3, h4⟩
    cases h4
    rcases List.mem_append.mp he with hm | hm
    · exact ⟨_, _, _, h1, hm⟩
    · exact ih h3 hm

theorem countP_zero_of_shape {l : List VIssue} {p : VIssue → Bool}
    (h : ∀ e ∈ l, p e = false) : l.countP p = 0 :=
  List.countP_eq_zero.mpr (by intro a ha; simp [h a ha])

theorem countP_forEachIssuesGo_pin {f : ℕ → Row → List VIssue}
    {p : VIssue → Bool} {i : ℕ}
    (hpin : ∀ j r e, e ∈ f j r → p e = true → j = i) :
    ∀ n rows, (forEachIssuesGo f n rows).countP p =
      if n ≤ i then
        (match rows[i - n]? with
          | some row => (f i row).countP p
          | none => 0)
      else 0 := by
  intro n rows
  induction rows generalizing n with
  | nil => simp [forEachIssuesGo]
  | cons row rest ih =>
    simp only [forEachIssuesGo, List.countP_append]
    rcases Nat.lt_trichotomy n i with hlt | heq | hgt
    · have h1 : (f n row).countP p = 0 :=
        countP_zero_of_shape (by
          intro e he
          by_contra hb
          exact absurd (hpin n row e he (by simpa using hb)) (Nat.ne_of_lt hlt))
      rw [h1, ih (n + 1)]
      have hle : n ≤ i := Nat.le_of_lt hlt
      have hle2 : n + 1 ≤ i := hlt
      have hidx : i - n = (i - (n + 1)) + 1 := by omega
      simp only [if_pos hle, if_pos hle2, hidx, List.getElem?_cons_succ, Nat.zero_add]
    · subst heq
      have h2 : (forEachIssuesGo f (n + 1) rest).countP p = 0 := by
        rw [ih (n + 1)]
        simp
      rw [h2]
      simp
    · have h1 : (f n row).countP p = 0 :=
        countP_zero_of_shape (by
          intro e he
          by_contra hb
          exact absurd (hpin n row e he (by simpa using hb))
            (by omega))
      rw [h1, ih (n + 1)]
      have : ¬ (n ≤ i) := by omega
      have : ¬ (n + 1 ≤ i) := by omega
      simp [*]

theorem validateDataE_ok_decomp {c w t : Option (List Row)} {es : List VIssue}
    (h : validateDataE c w t = .ok es) :
    ∃ e6 e65 e9 e10 e11 e12 e132,
      whenBothM c t refsCheck = .ok e6 ∧
      whenNonEmptyM c taskIdFormatRefCheck = .ok e65 ∧
      whenBothM w t saturationCheck = .ok e9 ∧
      whenBothM w t skillCoverageCheck = .ok e10 ∧
      whenBothM w t maxConcurrencyCheck = .ok e11 ∧
      whenNonEmptyM t preferredPhasesCheck = .ok e12 ∧
      whenNonEmptyM c clientNameCheck = .ok e132 ∧
      es =
        whenNonEmpty c (missingColsCheck .clients requiredClientCols) ++
        whenNonEmpty w (missingColsCheck .workers requiredWorkerCols) ++
        whenNonEmpty t (missingColsCheck .tasks requiredTaskCols) ++
        whenNonEmpty c (dupIdCheck .clients "ClientID") ++
        whenNonEmpty w (dupIdCheck .workers "WorkerID") ++
        whenNonEmpty t (dupIdCheck .tasks "TaskID") ++
        whenNonEmpty w slotsCheck ++
        whenNonEmpty c priorityCheck ++
        whenNonEmpty t durationCheck ++
        whenNonEmpty w maxLoadCheck ++
        whenNonEmpty c attrsCheck ++
        e6 ++ e65 ++
        whenNonEmpty w overloadCheck ++
        e9 ++ e10 ++ e11 ++ e12 ++
        whenNonEmpty c groupTagCheck ++ e132 ++
        whenNonEmpty t (idFormatCheck .tasks 'T' "TaskID" .invalidTaskIdFormat) ++
        whenNonEmpty w (idFormatCheck .workers 'W' "WorkerID" .invalidWorkerIdFormat) ++
        whenNonEmpty c (idFormatCheck .clients 'C' "ClientID" .invalidClientIdFormat) := by
  unfold validateDataE at h
  rcases except_bind_ok.mp h with ⟨e6, h6, h⟩
  rcases except_bind_ok.mp h with ⟨e65, h65, h⟩
  rcases except_bind_ok.mp h with ⟨e9, h9, h⟩
  rcases except_bind_ok.mp h with ⟨e10, h10, h⟩
  rcases except_bind_ok.mp h with ⟨e11, h11, h⟩
  rcases except_bind_ok.mp h with ⟨e12, h12, h⟩
  rcases except_bind_ok.mp h with ⟨e132, h132, h⟩
  simp only [pure, Except.pure, Except.ok.injEq] at h
  exact ⟨e6, e65, e9, e10, e11, e12, e132, h6, h65, h9, h10, h11, h12, h132, h.symm⟩

/-! ### Message shape of each check -/

theorem missingColsCheck_shape {ent cols rows} :
    ∀ e ∈ missingColsCheck ent cols rows, ∃ col, e.message = .missingColumn col := by
  intro e he
  simp only [missingColsCheck, List.mem_flatMap] at he
  rcases he with ⟨col, _, hm⟩
  split at hm
  · simp at hm
  · simp at hm
    subst hm
    exact ⟨col, rfl⟩

theorem dupIdGo_shape {ent idCol} :
    ∀ {seen n rows e}, e ∈ dupIdGo ent idCol seen n rows →
      ∃ i v, e = ⟨ent, some i, some idCol, .duplicateId idCol v, .error⟩ := by
  intro seen n rows
  induction rows generalizing seen n with
  | nil => intro e he; simp [dupIdGo] at he
  | cons row rest ih =>
    intro e he
    simp only [dupIdGo, List.mem_append] at he
    rcases he with he | he
    · split at he
      · simp at he
        subst he
        exact ⟨n, _, rfl⟩
      · simp at he
    · exact ih he

theorem dupIdCheck_shape {ent idCol rows} :
    ∀ e ∈ dupIdCheck ent idCol rows,
      ∃ i v, e = ⟨ent, some i, some idCol, .duplicateId idCol v, .error⟩ :=
  fun _ he => dupIdGo_shape he

theorem slotsCheck_shape {rows} :
    ∀ e ∈ slotsCheck rows,
      e.message = .slotsNotPositive ∨ e.message = .slotsNotArray ∨
        e.message = .slotsMalformed := by
  intro e he
  obtain ⟨j, r, hm⟩ := mem_forEachIssuesGo he
  split at hm
  · split at hm
    · simp at hm
      subst hm
      simp
    · simp at hm
  · simp at hm; subst hm; simp
  · simp at hm; subst hm; simp

theorem priorityCheck_shape {rows} :
    ∀ e ∈ priorityCheck rows,
      e = ⟨.clients, e.rowIndex, some "PriorityLevel", .priorityRange, .error⟩ ∧
        ∃ i, e.rowIndex = some i := by
  intro e he
  obtain ⟨j, r, hm⟩ := mem_forEachIssuesGo he
  split at hm
  · simp at hm; subst hm; exact ⟨rfl, j, rfl⟩
  · simp at hm

theorem durationCheck_shape {rows} :
    ∀ e ∈ durationCheck rows, e.message = .durationRange := by
  intro e he
  obtain ⟨j, r, hm⟩ := mem_forEachIssuesGo he
  split at hm
  · simp at hm; subst hm; rfl
  · simp at hm

theorem maxLoadCheck_shape {rows} :
    ∀ e ∈ maxLoadCheck rows, e.message = .maxLoadRange := by
  intro e he
  obtain ⟨j, r, hm⟩ := mem_forEachIssuesGo he
  split at hm
  · simp at hm; subst hm; rfl
  · simp at hm

theorem attrsCheck_shape {rows} :
    ∀ e ∈ attrsCheck rows, e.message = .badAttributesJSON := by
  intro e he
  obtain ⟨j, r, hm⟩ := mem_forEachIssuesGo he
  split at hm
  · split at hm
    · simp at hm; subst hm; rfl
    · simp at hm
  · simp at hm

theorem refsCheck_shape {clients tasks es} (h : refsCheck clients tasks = .ok es) :
    ∀ e ∈ es, ∃ i tid, e = ⟨.clients, some i, some "RequestedTaskIDs",
      .unknownTaskRef tid, .error⟩ := by
  intro e he
  obtain ⟨j, r, es', hok, hm⟩ := mem_forEachIssuesMGo h he
  rcases except_bind_ok.mp hok with ⟨tags, _, hpure⟩
  simp only [pure, Except.pure, Except.ok.injEq] at hpure
  subst hpure
  simp only [List.mem_flatMap] at hm
  rcases hm with ⟨tid, _, hm⟩
  split at hm
  · simp at hm
  · simp at hm; subst hm; exact ⟨j, tid, rfl⟩

theorem taskIdFormatRefCheck_shape {clients es}
    (h : taskIdFormatRefCheck clients = .ok es) :
    ∀ e ∈ es, ∃ v, e.message = .invalidTaskIdFormat v := by
  intro e he
  obtain ⟨j, r, es', hok, hm⟩ := mem_forEachIssuesMGo h he
  rcases except_bind_ok.mp hok with ⟨tags, _, hpure⟩
  simp only [pure, Except.pure, Except.ok.injEq] at hpure
  subst hpure
  simp only [List.mem_flatMap] at hm
  rcases hm with ⟨tid, _, hm⟩
  split at hm
  · simp at hm
  · simp at hm; subst hm; exact ⟨_, rfl⟩

theorem overloadCheck_shape {rows} :
    ∀ e ∈ overloadCheck rows, ∃ m l, e.message = .overload m l := by
  intro e he
  obtain ⟨j, r, hm⟩ := mem_forEachIssuesGo he
  split at hm
  · split at hm
    · simp at hm; subst hm; exact ⟨_, _, rfl⟩
    · simp at hm
  · simp at hm

theorem perPhaseIssues_shape {workers tasks} :
    ∀ {ps es}, perPhaseIssues workers tasks ps = .ok es →
      ∀ e ∈ es, ∃ p d sl, e = ⟨.tasks, none, some "PreferredPhases",
        .saturation p d sl, .warning⟩ ∧ p ∈ ps := by
  intro ps
  induction ps with
  | nil =>
    intro es h e he
    simp only [perPhaseIssues] at h
    cases h
    simp at he
  | cons p ps ih =>
    intro es h e he
    simp only [perPhaseIssues] at h
    rcases except_bind_ok.mp h with ⟨d, hd, h⟩
    rcases except_bind_ok.mp h with ⟨rest, hrest, hpure⟩
    simp only [pure, Except.pure, Except.ok.injEq] at hpure
    subst hpure
    rcases List.mem_append.mp he with hm | hm
    · split at hm
      · simp at hm
        subst hm
        exact ⟨p, _, _, rfl, List.mem_cons_self _ _⟩
      · simp at hm
    · obtain ⟨p', d', sl', he', hp'⟩ := ih hrest e hm
      exact ⟨p', d', sl', he', List.mem_cons_of_mem _ hp'⟩

theorem saturationCheck_shape {workers tasks es}
    (h : saturationCheck workers tasks = .ok es) :
    ∀ e ∈ es, ∃ p d sl, e = ⟨.tasks, none, some "PreferredPhases",
      .saturation p d sl, .warning⟩ ∧ p ∈ allWorkerPhases workers :=
  perPhaseIssues_shape h

theorem skillCoverageCheck_shape {workers tasks es}
    (h : skillCoverageCheck workers tasks = .ok es) :
    ∀ e ∈ es, ∃ sk, e.message = .uncoveredSkills sk := by
  intro e he
  unfold skillCoverageCheck at h
  rcases except_bind_ok.mp h with ⟨sl, _, h2⟩
  obtain ⟨j, r, es', hok, hm⟩ := mem_forEachIssuesMGo h2 he
  rcases except_bind_ok.mp hok with ⟨req, _, hpure⟩
  simp only [pure, Except.pure, Except.ok.injEq] at hpure
  subst hpure
  split at hm
  · simp at hm
  · simp at hm; subst hm; exact ⟨_, rfl⟩

theorem maxConcurrencyCheck_shape {workers tasks es}
    (h : maxConcurrencyCheck workers tasks = .ok es) :
    ∀ e ∈ es, ∃ m q, e.message = .maxConcurrentExceeds m q := by
  intro e he
  obtain ⟨j, r, es', hok, hm⟩ := mem_forEachIssuesMGo h he
  rcases except_bind_ok.mp hok with ⟨req, _, h2⟩
  rcases except_bind_ok.mp h2 with ⟨qual, _, hpure⟩
  simp only [pure, Except.pure, Except.ok.injEq] at hpure
  subst hpure
  split at hm
  · simp at hm; subst hm; exact ⟨_, _, rfl⟩
  · simp at hm

theorem preferredPhasesCheck_shape {tasks es}
    (h : preferredPhasesCheck tasks = .ok es) :
    ∀ e ∈ es, e.message = .invalidPreferredPhases := by
  intro e he
  obtain ⟨j, r, es', hok, hm⟩ := mem_forEachIssuesMGo h he
  rcases except_bind_ok.mp hok with ⟨ph, _, hpure⟩
  simp only [pure, Except.pure, Except.ok.injEq] at hpure
  subst hpure
  split at hm
  · simp at hm; subst hm; rfl
  · simp at hm

theorem groupTagCheck_shape {rows} :
    ∀ e ∈ groupTagCheck rows, ∃ v, e.message = .invalidGroupTag v := by
  intro e he
  obtain ⟨j, r, hm⟩ := mem_forEachIssuesGo he
  split at hm
  · simp at hm; subst hm; exact ⟨_, rfl⟩
  · simp at hm

theorem clientNameCheck_shape {rows es} (h : clientNameCheck rows = .ok es) :
    ∀ e ∈ es, e.message = .emptyClientName := by
  intro e he
  obtain ⟨j, r, es', hok, hm⟩ := mem_forEachIssuesMGo h he
  split at hok
  · simp only [Except.ok.injEq] at hok
    subst hok
    simp at hm
    subst hm
    rfl
  · split at hok
    · simp only [Except.ok.injEq] at hok
      subst hok
      split at hm
      · simp at hm; subst hm; rfl
      · simp at hm
    · cases hok

theorem idFormatCheck_shape {ent c0 idCol mk rows} :
    ∀ e ∈ idFormatCheck ent c0 idCol mk rows, ∃ v, e.message = mk v := by
  intro e he
  obtain ⟨j, r, hm⟩ := mem_forEachIssuesGo he
  split at hm
  · simp at hm
  · simp at hm; subst hm; exact ⟨_, rfl⟩

/-! ## Concrete rows for the scenarios -/

/-- A client row requesting `T1` once. -/
def clientC1T1 : Row :=
  [("ClientID", .str "C1"), ("ClientName", .str "Acme"),
    ("PriorityLevel", .str "5"), ("RequestedTaskIDs", .str "T1"),
    ("GroupTag", .str "GroupA"), ("AttributesJSON", .str "\x7b\x7d")]

/-- A client row with the fractional `PriorityLevel` `"2.5"`. -/
def clientP25 : Row :=
  [("ClientID", .str "C1"), ("ClientName", .str "Acme"),
    ("PriorityLevel", .str "2.5"), ("RequestedTaskIDs", .str ""),
    ("GroupTag", .str "GroupA"), ("AttributesJSON", .str "\x7b\x7d")]

/-- A client row with `PriorityLevel` `6`. -/
def clientP6 : Row :=
  [("ClientID", .str "C1"), ("ClientName", .str "Acme"),
    ("PriorityLevel", .str "6"), ("RequestedTaskIDs", .str ""),
    ("GroupTag", .str "GroupA"), ("AttributesJSON", .str "\x7b\x7d")]

/-- A task row whose `PreferredPhases` is the single token `"5"`. -/
def taskP5 : Row :=
  [("TaskID", .str "T1"), ("TaskName", .str "Build"), ("Category", .str "c"),
    ("Duration", .str "2"), ("RequiredSkills", .str ""),
    ("PreferredPhases", .str "5"), ("MaxConcurrent", .str "1")]

/-- A worker row whose `AvailableSlots` is `"[-1]"` (valid JSON array with a
non-positive element). -/
def workerNeg : Row :=
  [("WorkerID", .str "W1"), ("WorkerName", .str "Alice"),
    ("Skills", .str "python"), ("AvailableSlots", .str "[-1]"),
    ("MaxLoadPerPhase", .str "1"), ("WorkerGroup", .str "G"),
    ("QualificationLevel", .str "1")]

/-- A worker row whose `AvailableSlots` contains the non-numeric element
`"x"` and whose `MaxLoadPerPhase` is negative. -/
def workerX : Row :=
  [("WorkerID", .str "W9"), ("WorkerName", .str "Bob"),
    ("Skills", .str "python"), ("AvailableSlots", .str "[\x22x\x22]"),
    ("MaxLoadPerPhase", .str "-1"), ("WorkerGroup", .str "G"),
    ("QualificationLevel", .str "1")]

/-- Does the message report an unknown task reference? -/
def isUnknownRefMsg (e : VIssue) : Bool :=
  match e.message with
  | .unknownTaskRef _ => true
  | _ => false

/-- Does the message report saturation of exactly phase `p`? -/
def isSatPhase (p : JVal) (e : VIssue) : Bool :=
  match e.message with
  | .saturation p' _ _ => p' == p
  | _ => false

/-- Is the value a JS number? -/
def isNumVal : JVal → Bool
  | .num _ => true
  | _ => false

/-! ## Claim theorems -/

/-- C1: the claim that `validateData` never throws is wrong on the code: a
tasks table consisting of one empty row makes check 12 call
`parsePhases(undefined)`, whose catch branch evaluates
`undefined.includes('-')` and raises an uncaught `TypeError`, so
`validateData` throws instead of returning an issue list. -/
theorem C1_validateData_throws_on_empty_task_row :
    validateDataE none none (some [[]]) = .error () := by decide

/-- C2: the fairness term is *not* strictly smaller for the second candidate
of the same worker: the code counts `allocations.filter(a => a.worker ===
worker.WorkerID)`, but `a.worker` stores `WorkerName`, so for a worker whose
name differs from its id the count stays 0 and both candidates of one pass
receive the identical fairness term `1 · (weights.fairness / 100)` even
though `weights.fairness > 0`. -/
theorem C2_fairness_term_not_reduced_for_second_candidate :
    generateAllocationPreview (some [clientC1TwiceT1]) (some [workerW1])
        (some [taskT1]) weights5 =
      .ok [⟨.str "Acme", .str "Build", .str "Alice", some (mkRat 73 200),
          [.priority (mkRat 5 1) (mkRat 1 4), .fairness (mkRat 1 20),
            .workload (some (mkRat 3 200)), .cost (mkRat 1 20)]⟩,
        ⟨.str "Acme", .str "Build", .str "Alice", some (mkRat 73 200),
          [.priority (mkRat 5 1) (mkRat 1 4), .fairness (mkRat 1 20),
            .workload (some (mkRat 3 200)), .cost (mkRat 1 20)]⟩] ∧
      (0 : ℚ) < weights5.fairness := by
  constructor
  · decide
  · decide

/-- The amended claim C3's reading of `parsePhases` on strings: JSON parse
success takes absolute priority — an array keeps its positive numeric
elements, any other successfully parsed document (including a single
integer token such as `"5"`, which is valid JSON) yields the empty set, and
only a failed JSON parse reaches the dash-range and comma-list fallbacks. -/
def parsePhaseSetSpec (s : String) : List ℚ :=
  match jsonParse s with
  | some (.arr xs) => posNumsOf xs
  | some _ => []
  | none =>
    if s.data.contains '-' then
      match (splitOnChar '-' s.data).map
          (fun cs => parseIntJS (jsTrim (String.mk cs))) with
      | some a :: some b :: _ =>
        if 0 < a ∧ a ≤ b then rangeList a b else []
      | _ => []
    else
      if ((splitOnChar ',' s.data).map
          (fun cs => parseIntJS (jsTrim (String.mk cs)))).all (fun p =>
            match p with
            | some v => decide (0 < v)
            | none => false) then
        ((splitOnChar ',' s.data).map
          (fun cs => parseIntJS (jsTrim (String.mk cs)))).map
            (fun p => mkRat (p.getD 0) 1)
      else []

/-- C3 counterexample: `"5"` is a comma-separated list whose single token
parses to the positive integer 5, so the claim demands `{5}` — but `"5"` is
also valid JSON (a number, not an array), the catch branch never runs, and
the code returns the empty set, which validateData then reports as a
`PreferredPhases` format error. -/
theorem C3_counterexample :
    parsePhasesJ (.str "5") = .ok [] ∧
      parsePhasesJ (.str "5") ≠ .ok [mkRat 5 1] ∧
      (validateDataE none none (some [taskP5])).map
        (fun es => es.countP fun e => e.message = .invalidPreferredPhases) =
        .ok 1 := by
  refine ⟨by decide, by decide, by decide⟩

/-- C3 amended: on every string, `parsePhases` returns exactly the set
described by `parsePhaseSetSpec` (JSON-success first, with non-array JSON
documents — in particular bare integers — yielding the empty set); the
range `"2-4"` still expands to `{2,3,4}` and `"5"` yields `∅`. -/
theorem C3_parsePhases_amended :
    (∀ s : String, parsePhasesJ (.str s) = .ok (parsePhaseSetSpec s)) ∧
      parsePhaseSetSpec "2-4" = [mkRat 2 1, mkRat 3 1, mkRat 4 1] ∧
      parsePhaseSetSpec "5" = [] := by
  refine ⟨fun s => ?_, by decide, by decide⟩
  unfold parsePhasesJ parsePhaseSetSpec jsonParseVal
  simp only [jsToString]
  cases jsonParse s with
  | none =>
    split <;> try rfl
    split
    · split <;> try rfl
      split <;> rfl
    · split <;> rfl
  | some v => cases v <;> rfl

/-- C5 counterexample: with a non-empty clients table and an *empty* tasks
table the unknown-reference check is skipped entirely (its guard requires
`tasks.length > 0`), so the requested id `T1` — absent from the empty tasks
table — produces no issue at all, where the claim demands one per missing
reference for tables of any size. -/
theorem C5_counterexample :
    (validateDataE (some [clientC1T1]) none (some [])).map
        (fun es => es.countP isUnknownRefMsg) = .ok 0 ∧
      splitTags (getCell clientC1T1 "RequestedTaskIDs") = .ok ["T1"] := by
  refine ⟨by decide, by decide⟩

/-- C6 counterexample: `AvailableSlots = "[-1]"` does not parse as an array
of positive numbers, so the claim demands a zero workload term and an
invalid-slots note — but the code only takes the invalid path when
`JSON.parse` throws; `"[-1]"` parses, the term is `(1/10)·(5/100) = 1/200 ≠
0`, and the reason notes a normal workload, not invalid slots. -/
theorem C6_counterexample :
    generateAllocationPreview (some [clientC1T1]) (some [workerNeg])
        (some [taskT1]) weights5 =
      .ok [⟨.str "Acme", .str "Build", .str "Alice", some (mkRat 71 200),
        [.priority (mkRat 5 1) (mkRat 1 4), .fairness (mkRat 1 20),
          .workload (some (mkRat 1 200)), .cost (mkRat 1 20)]⟩] ∧
      some (mkRat 1 200) ≠ (some 0 : Option ℚ) ∧
      Reason.workloadInvalid ∉
        [Reason.priority (mkRat 5 1) (mkRat 1 4), .fairness (mkRat 1 20),
          .workload (some (mkRat 1 200)), .cost (mkRat 1 20)] := by
  refine ⟨by decide, by decide, by decide⟩

/-- C7 counterexample: any element of a parsed `AvailableSlots` array joins
the phase set, numeric or not: with slots `["x"]` and `MaxLoadPerPhase = -1`
the code emits a saturation warning for the non-number phase `"x"`
(`0 > -1`), where the claim allows warnings only for phase *numbers*. -/
theorem C7_counterexample :
    (validateDataE none (some [workerX]) (some [taskT1])).map
        (fun es => es.countP (isSatPhase (.str "x"))) = .ok 1 ∧
      isNumVal (.str "x") = false := by
  refine ⟨by decide, by decide⟩

/-- C9: the score, the ranking, and the reason strings are independent of
`weights.requestedTaskFulfillment`: changing only that dial leaves the
entire allocation preview unchanged (the fifth weight is never read by the
scoring pass). -/
theorem C9_requestedTaskFulfillment_unused (c w t : Option (List Row))
    (W : Weights) (x : ℚ) :
    generateAllocationPreview c w t
        { W with requestedTaskFulfillment := x } =
      generateAllocationPreview c w t W := rfl

/-- C6 amended: the workload term is `(length/10)·(weights.workload/100)`
for *every* successfully parsed JSON array (no positivity or element-type
check — `"[-1]"` counts its element), and the 0-contribution with the
invalid-slots note happens exactly when `JSON.parse` throws (or the
`.length` read throws, i.e. on `null`); the candidate's third reason entry
is the workload part's reason and the score adds the workload part's
contribution. -/
theorem C6_workload_amended :
    (∀ (cell : JVal) (wW : ℚ) (xs : List JVal),
      jsonParseVal cell = some (.arr xs) →
        workloadPart cell wW =
          (some ((xs.length : ℚ) / 10 * (wW / 100)),
            .workload (some ((xs.length : ℚ) / 10 * (wW / 100))))) ∧
    (∀ (cell : JVal) (wW : ℚ), jsonParseVal cell = none →
      workloadPart cell wW = (some 0, .workloadInvalid)) ∧
    (∀ (pl : ℚ) (client task worker : Row) (prior : List Alloc) (W : Weights),
      (scoreWorker pl client task prior worker W).reason[2]? =
        some (workloadPart (getCell worker "AvailableSlots") W.workload).2 ∧
      (scoreWorker pl client task prior worker W).score =
        optAdd (optAdd (optAdd (optAdd (some 0)
          (some (qmul pl (qdiv W.priorityLevel (mkRat 100 1)))))
          (some (qmul (qdiv (mkRat 1 1) (mkRat
            ((prior.filter fun a =>
              jsStrictEq a.worker (getCell worker "WorkerID")).length + 1) 1))
            (qdiv W.fairness (mkRat 100 1)))))
          (workloadPart (getCell worker "AvailableSlots") W.workload).1)
          (some (qmul (qdiv (mkRat 1 1)
            (numOr1 (getCell worker "QualificationLevel")))
            (qdiv W.cost (mkRat 100 1))))) := by
  refine ⟨fun cell wW xs h => ?_, fun cell wW h => ?_, fun pl c t wk pr W => ⟨rfl, rfl⟩⟩
  · simp only [workloadPart, h, getLengthVal, toNumber, optDiv, optMul]
    have h10 : (mkRat 10 1 : ℚ) = 10 := by decide
    have h100 : (mkRat 100 1 : ℚ) = 100 := by decide
    have hl : (mkRat xs.length 1 : ℚ) = (xs.length : ℚ) := by
      rw [Rat.mkRat_eq_div]
      push_cast
      exact div_one _
    rw [h10, h100, hl, qdiv_eq, qdiv_eq, qmul_eq]
  · simp only [workloadPart, h]

/-- C6 witness: a parsed three-slot array gets workload `3/10 · 5/100`, and
an unparseable cell gets the zero/invalid pair. -/
theorem C6_workload_amended_witness :
    workloadPart (.str "[1,2,3]") (mkRat 5 1) =
      (some (((3 : ℕ) : ℚ) / 10 * (mkRat 5 1 / 100)),
        .workload (some (((3 : ℕ) : ℚ) / 10 * (mkRat 5 1 / 100)))) ∧
    workloadPart (.str "oops") (mkRat 5 1) = (some 0, .workloadInvalid) := by
  constructor
  · have h := C6_workload_amended.1 (.str "[1,2,3]") (mkRat 5 1)
      [.num (some (mkRat 1 1)), .num (some (mkRat 2 1)), .num (some (mkRat 3 1))]
      (by decide)
    simpa using h
  · exact C6_workload_amended.2.1 (.str "oops") (mkRat 5 1) (by decide)

/-- Reading any other field is unaffected by a leading `PriorityLevel`
binding. -/
theorem getCell_cons_ne {k k' : String} {v : JVal} {row : Row} (h : k ≠ k') :
    getCell ((k, v) :: row) k' = getCell row k' := by
  unfold getCell
  rw [List.find?_cons_of_neg]
  simp [h]

/-- Reading the field bound at the head of the row. -/
theorem getCell_cons_self {k : String} {v : JVal} {row : Row} :
    getCell ((k, v) :: row) k = v := by
  unfold getCell
  rw [List.find?_cons_of_pos]
  simp

/-- The scored candidate depends on the client row only through
`ClientName`. -/
theorem scoreWorker_client_congr {pl : ℚ} {r1 r2 task : Row}
    {prior : List Alloc} {worker : Row} {W : Weights}
    (h : getCell r1 "ClientName" = getCell r2 "ClientName") :
    scoreWorker pl r1 task prior worker W =
      scoreWorker pl r2 task prior worker W := by
  simp only [scoreWorker, h]

/-- The per-task step depends on the client row only through `ClientName`. -/
theorem taskStep_client_congr {workers tasks : List Row} {W : Weights}
    {r1 r2 : Row}
    (h : getCell r1 "ClientName" = getCell r2 "ClientName") :
    taskStep workers tasks W r1 = taskStep workers tasks W r2 := by
  funext pl acc2 tid
  unfold taskStep
  simp only [scoreWorker_client_congr h]

/-- The per-client pass depends on the client row only through its
`RequestedTaskIDs`, effective priority, and `ClientName`. -/
theorem clientPass_congr {workers tasks : List Row} {W : Weights}
    {acc : List Alloc} {r1 r2 : Row}
    (hreq : getCell r1 "RequestedTaskIDs" = getCell r2 "RequestedTaskIDs")
    (hname : getCell r1 "ClientName" = getCell r2 "ClientName")
    (hpl : numOr1 (getCell r1 "PriorityLevel") = numOr1 (getCell r2 "PriorityLevel")) :
    clientPass workers tasks W acc r1 = clientPass workers tasks W acc r2 := by
  unfold clientPass
  rw [hreq, hpl, taskStep_client_congr hname]

/-- Replacing one list element by one with an equal fold step leaves the
monadic fold unchanged. -/
theorem foldlM_clientPass_congr {workers tasks : List Row} {W : Weights}
    {r1 r2 : Row}
    (h : ∀ acc, clientPass workers tasks W acc r1 =
      clientPass workers tasks W acc r2) :
    ∀ (pre post : List Row) (init : List Alloc),
      (pre ++ r1 :: post).foldlM (clientPass workers tasks W) init =
      (pre ++ r2 :: post).foldlM (clientPass workers tasks W) init := by
  intro pre
  induction pre with
  | nil =>
    intro post init
    simp only [List.nil_append, List.foldlM_cons, h init]
  | cons r pre ih =>
    intro post init
    simp only [List.cons_append, List.foldlM_cons]
    exact congrArg (clientPass workers tasks W init r >>= ·)
      (funext fun a => ih post a)

/-- C10: a client whose `PriorityLevel` cell is missing/non-numeric
(`Number` gives `NaN`) or `0` is scored exactly as if the level were `1`
(`Number(x) || 1`): the whole allocation preview — candidates, scores and
reasons — coincides with the preview for the same table with that cell set
to the number `1`, so the candidates are produced, the priority term is
`1 · (weights.priorityLevel/100)`, and nothing in the reasons reveals the
invalid level. -/
theorem C10_invalid_priority_scored_as_one
    (cpre cpost : List Row) (row : Row) (v : JVal)
    (wk t : Option (List Row)) (W : Weights)
    (hv : toNumber v = none ∨ toNumber v = some 0) :
    generateAllocationPreview
        (some (cpre ++ (("PriorityLevel", v) :: row) :: cpost)) wk t W =
      generateAllocationPreview
        (some (cpre ++ (("PriorityLevel", .num (some 1)) :: row) :: cpost)) wk t W := by
  cases wk with
  | none => rfl
  | some ws =>
    cases t with
    | none => rfl
    | some ts =>
      have hpl : numOr1 (getCell (("PriorityLevel", v) :: row) "PriorityLevel") =
          numOr1 (getCell (("PriorityLevel", .num (some 1)) :: row) "PriorityLevel") := by
        rw [getCell_cons_self, getCell_cons_self]
        rcases hv with hv | hv <;> simp [numOr1, hv] <;> decide
      have hcp : ∀ acc, clientPass ws ts W acc (("PriorityLevel", v) :: row) =
          clientPass ws ts W acc (("PriorityLevel", .num (some 1)) :: row) :=
        fun acc => clientPass_congr
          (by rw [getCell_cons_ne (by decide), getCell_cons_ne (by decide)])
          (by rw [getCell_cons_ne (by decide), getCell_cons_ne (by decide)])
          hpl
      show (do
          let allocations ← genCandidates (cpre ++ (("PriorityLevel", v) :: row) :: cpost) ws ts W
          pure ((stableSortAllocs allocations).take 20)) = _
      unfold genCandidates
      rw [foldlM_clientPass_congr hcp cpre cpost []]
      rfl

/-- C10 witness: a client with the non-numeric `PriorityLevel` `"abc"` is
previewed exactly like the same client with `PriorityLevel` `1`. -/
theorem C10_witness :
    generateAllocationPreview
        (some ([] ++ (("PriorityLevel", .str "abc") :: clientC1T1.tail) :: [])) 
        (some [workerW1]) (some [taskT1]) weights5 =
      generateAllocationPreview
        (some ([] ++ (("PriorityLevel", .num (some 1)) :: clientC1T1.tail) :: []))
        (some [workerW1]) (some [taskT1]) weights5 :=
  C10_invalid_priority_scored_as_one [] [] clientC1T1.tail (.str "abc")
    (some [workerW1]) (some [taskT1]) weights5 (Or.inl (by decide))

/-! ### Locating issues inside guarded checks -/

theorem mem_whenNonEmpty {t : Option (List Row)} {f : List Row → List VIssue}
    {e : VIssue} (he : e ∈ whenNonEmpty t f) :
    ∃ rows, t = some rows ∧ e ∈ f rows := by
  cases t with
  | none => simp [whenNonEmpty] at he
  | some rows =>
    simp only [whenNonEmpty] at he
    split at he
    · simp at he
    · exact ⟨rows, rfl, he⟩

theorem whenNonEmptyM_ok_mem {t : Option (List Row)}
    {f : List Row → Except Unit (List VIssue)} {es : List VIssue} {e : VIssue}
    (h : whenNonEmptyM t f = .ok es) (he : e ∈ es) :
    ∃ rows, t = some rows ∧ f rows = .ok es := by
  cases t with
  | none =>
    simp only [whenNonEmptyM, Except.ok.injEq] at h
    subst h
    simp at he
  | some rows =>
    simp only [whenNonEmptyM] at h
    split at h
    · simp only [Except.ok.injEq] at h
      subst h
      simp at he
    · exact ⟨rows, rfl, h⟩

theorem whenBothM_ok_mem {t1 t2 : Option (List Row)}
    {f : List Row → List Row → Except Unit (List VIssue)} {es : List VIssue}
    {e : VIssue} (h : whenBothM t1 t2 f = .ok es) (he : e ∈ es) :
    ∃ r1 r2, t1 = some r1 ∧ t2 = some r2 ∧ f r1 r2 = .ok es := by
  cases t1 with
  | none =>
    simp only [whenBothM, Except.ok.injEq] at h
    subst h
    simp at he
  | some r1 =>
    cases t2 with
    | none =>
      simp only [whenBothM, Except.ok.injEq] at h
      subst h
      simp at he
    | some r2 =>
      simp only [whenBothM] at h
      split at h
      · simp only [Except.ok.injEq] at h
        subst h
        simp at he
      · exact ⟨r1, r2, rfl, rfl, h⟩

/-- The predicate of claim C4: an issue of a given range-error template at a
given row. -/
def isColRangeErrAt (ent : Entity) (col : String) (m : Msg) (i : ℕ)
    (e : VIssue) : Bool :=
  (e.entity == ent) && (e.rowIndex == some i) && (e.column == some col) &&
    (e.message == m) && (e.severity == .error)

-- Any predicate implying a range-class message counts only the three
-- range checks inside `validateData`.
set_option maxHeartbeats 2000000 in
theorem validateDataE_rangeMsg_count {c w t : Option (List Row)}
    {es : List VIssue} (h : validateDataE c w t = .ok es) (p : VIssue → Bool)
    (hp : ∀ e, p e = true → e.message = .priorityRange ∨
      e.message = .durationRange ∨ e.message = .maxLoadRange) :
    es.countP p = (whenNonEmpty c priorityCheck).countP p +
      (whenNonEmpty t durationCheck).countP p +
      (whenNonEmpty w maxLoadCheck).countP p := by
  obtain ⟨e6, e65, e9, e10, e11, e12, e132, h6, h65, h9, h10, h11, h12, h132, hes⟩ :=
    validateDataE_ok_decomp h
  rw [hes]
  have hz : ∀ (l : List VIssue),
      (∀ e ∈ l, e.message ≠ .priorityRange ∧ e.message ≠ .durationRange ∧
        e.message ≠ .maxLoadRange) → l.countP p = 0 := by
    intro l hl
    refine countP_zero_of_shape fun e he => ?_
    by_contra hb
    obtain ⟨h1, h2, h3⟩ := hl e he
    rcases hp e (by simpa using hb) with hm | hm | hm
    exacts [h1 hm, h2 hm, h3 hm]
  have z1 : ∀ ent cols tt, (whenNonEmpty tt (missingColsCheck ent cols)).countP p = 0 := by
    intro ent cols tt
    refine hz _ fun e he => ?_
    obtain ⟨rows, -, he⟩ := mem_whenNonEmpty he
    obtain ⟨col, hm⟩ := missingColsCheck_shape _ he
    simp [hm]
  have z2 : ∀ ent idCol tt, (whenNonEmpty tt (dupIdCheck ent idCol)).countP p = 0 := by
    intro ent idCol tt
    refine hz _ fun e he => ?_
    obtain ⟨rows, -, he⟩ := mem_whenNonEmpty he
    obtain ⟨i, v, hm⟩ := dupIdCheck_shape _ he
    subst hm
    simp
  have z3 : (whenNonEmpty w slotsCheck).countP p = 0 := by
    refine hz _ fun e he => ?_
    obtain ⟨rows, -, he⟩ := mem_whenNonEmpty he
    rcases slotsCheck_shape _ he with hm | hm | hm <;> simp [hm]
  have z5 : (whenNonEmpty c attrsCheck).countP p = 0 := by
    refine hz _ fun e he => ?_
    obtain ⟨rows, -, he⟩ := mem_whenNonEmpty he
    simp [attrsCheck_shape _ he]
  have z6 : e6.countP p = 0 := by
    refine hz _ fun e he => ?_
    obtain ⟨r1, r2, -, -, h6'⟩ := whenBothM_ok_mem h6 he
    obtain ⟨i, tid, hm⟩ := refsCheck_shape h6' e he
    subst hm
    simp
  have z65 : e65.countP p = 0 := by
    refine hz _ fun e he => ?_
    obtain ⟨rows, -, h65'⟩ := whenNonEmptyM_ok_mem h65 he
    obtain ⟨v, hm⟩ := taskIdFormatRefCheck_shape h65' e he
    simp [hm]
  have z8 : (whenNonEmpty w overloadCheck).countP p = 0 := by
    refine hz _ fun e he => ?_
    obtain ⟨rows, -, he⟩ := mem_whenNonEmpty he
    obtain ⟨m, l, hm⟩ := overloadCheck_shape _ he
    simp [hm]
  have z9 : e9.countP p = 0 := by
    refine hz _ fun e he => ?_
    obtain ⟨r1, r2, -, -, h9'⟩ := whenBothM_ok_mem h9 he
    obtain ⟨ph, d, sl, hm, -⟩ := saturationCheck_shape h9' e he
    subst hm
    simp
  have z10 : e10.countP p = 0 := by
    refine hz _ fun e he => ?_
    obtain ⟨r1, r2, -, -, h10'⟩ := whenBothM_ok_mem h10 he
    obtain ⟨sk, hm⟩ := skillCoverageCheck_shape h10' e he
    simp [hm]
  have z11 : e11.countP p = 0 := by
    refine hz _ fun e he => ?_
    obtain ⟨r1, r2, -, -, h11'⟩ := whenBothM_ok_mem h11 he
    obtain ⟨m, q, hm⟩ := maxConcurrencyCheck_shape h11' e he
    simp [hm]
  have z12 : e12.countP p = 0 := by
    refine hz _ fun e he => ?_
    obtain ⟨rows, -, h12'⟩ := whenNonEmptyM_ok_mem h12 he
    simp [preferredPhasesCheck_shape h12' e he]
  have z131 : (whenNonEmpty c groupTagCheck).countP p = 0 := by
    refine hz _ fun e he => ?_
    obtain ⟨rows, -, he⟩ := mem_whenNonEmpty he
    obtain ⟨v, hm⟩ := groupTagCheck_shape _ he
    simp [hm]
  have z132 : e132.countP p = 0 := by
    refine hz _ fun e he => ?_
    obtain ⟨rows, -, h132'⟩ := whenNonEmptyM_ok_mem h132 he
    simp [clientNameCheck_shape h132' e he]
  have z133 : ∀ ent c0 idCol tt,
      (whenNonEmpty tt (idFormatCheck ent c0 idCol .invalidTaskIdFormat)).countP p = 0 := by
    intro ent c0 idCol tt
    refine hz _ fun e he => ?_
    obtain ⟨rows, -, he⟩ := mem_whenNonEmpty he
    obtain ⟨v, hm⟩ := idFormatCheck_shape _ he
    simp [hm]
  have z134 : ∀ ent c0 idCol tt,
      (whenNonEmpty tt (idFormatCheck ent c0 idCol .invalidWorkerIdFormat)).countP p = 0 := by
    intro ent c0 idCol tt
    refine hz _ fun e he => ?_
    obtain ⟨rows, -, he⟩ := mem_whenNonEmpty he
    obtain ⟨v, hm⟩ := idFormatCheck_shape _ he
    simp [hm]
  have z135 : ∀ ent c0 idCol tt,
      (whenNonEmpty tt (idFormatCheck ent c0 idCol .invalidClientIdFormat)).countP p = 0 := by
    intro ent c0 idCol tt
    refine hz _ fun e he => ?_
    obtain ⟨rows, -, he⟩ := mem_whenNonEmpty he
    obtain ⟨v, hm⟩ := idFormatCheck_shape _ he
    simp [hm]
  simp only [List.countP_append, z1, z2, z3, z5, z6, z65, z8, z9, z10, z11, z12,
    z131, z132, z133, z134, z135]
  ring

/-- C4 amended: the three numeric range checks use JS `Number` coercion,
not integrality: a client row gets exactly one `PriorityLevel` range error
iff `Number(PriorityLevel)` is `NaN`, `< 1` or `> 5`; a task row gets
exactly one `Duration` range error iff `Number(Duration)` is `NaN` or
`< 1`; a worker row likewise for `MaxLoadPerPhase`.  Fractional in-range
values such as `"2.5"` are accepted without error. -/
theorem C4_range_errors_amended {c w t : Option (List Row)} {es : List VIssue}
    (h : validateDataE c w t = .ok es) :
    (∀ rows i row, c = some rows → rows[i]? = some row →
      es.countP (isColRangeErrAt .clients "PriorityLevel" .priorityRange i) =
        if priorityBad (getCell row "PriorityLevel") then 1 else 0) ∧
    (∀ rows i row, t = some rows → rows[i]? = some row →
      es.countP (isColRangeErrAt .tasks "Duration" .durationRange i) =
        if geOneBad (getCell row "Duration") then 1 else 0) ∧
    (∀ rows i row, w = some rows → rows[i]? = some row →
      es.countP (isColRangeErrAt .workers "MaxLoadPerPhase" .maxLoadRange i) =
        if geOneBad (getCell row "MaxLoadPerPhase") then 1 else 0) := by
  refine ⟨fun rows i row hc hrow => ?_, fun rows i row ht hrow => ?_,
    fun rows i row hw hrow => ?_⟩
  · subst hc
    rw [validateDataE_rangeMsg_count h _
      (fun e hq => by simp [isColRangeErrAt] at hq; tauto)]
    have zd : (whenNonEmpty t durationCheck).countP
        (isColRangeErrAt .clients "PriorityLevel" .priorityRange i) = 0 := by
      refine countP_zero_of_shape fun e he => ?_
      obtain ⟨rws, -, he⟩ := mem_whenNonEmpty he
      simp [isColRangeErrAt, durationCheck_shape _ he]
    have zm : (whenNonEmpty w maxLoadCheck).countP
        (isColRangeErrAt .clients "PriorityLevel" .priorityRange i) = 0 := by
      refine countP_zero_of_shape fun e he => ?_
      obtain ⟨rws, -, he⟩ := mem_whenNonEmpty he
      simp [isColRangeErrAt, maxLoadCheck_shape _ he]
    rw [zd, zm]
    have hne : rows ≠ [] := by
      intro hnil
      subst hnil
      simp at hrow
    have hwne : whenNonEmpty (some rows) priorityCheck = priorityCheck rows := by
      simp [whenNonEmpty, hne]
    rw [hwne]
    unfold priorityCheck forEachIssues
    rw [countP_forEachIssuesGo_pin (i := i) (by
      intro j r e he hq
      split at he
      · simp only [List.mem_singleton] at he
        subst he
        simp [isColRangeErrAt] at hq
        omega
      · simp at he) 0 rows]
    simp only [Nat.zero_le, if_true, Nat.sub_zero, hrow]
    split
    · simp [isColRangeErrAt]
    · simp
  · subst ht
    rw [validateDataE_rangeMsg_count h _
      (fun e hq => by simp [isColRangeErrAt] at hq; tauto)]
    have zp : (whenNonEmpty c priorityCheck).countP
        (isColRangeErrAt .tasks "Duration" .durationRange i) = 0 := by
      refine countP_zero_of_shape fun e he => ?_
      obtain ⟨rws, -, he⟩ := mem_whenNonEmpty he
      obtain ⟨hm, -⟩ := priorityCheck_shape _ he
      rw [hm]
      simp [isColRangeErrAt]
    have zm : (whenNonEmpty w maxLoadCheck).countP
        (isColRangeErrAt .tasks "Duration" .durationRange i) = 0 := by
      refine countP_zero_of_shape fun e he => ?_
      obtain ⟨rws, -, he⟩ := mem_whenNonEmpty he
      simp [isColRangeErrAt, maxLoadCheck_shape _ he]
    rw [zp, zm]
    have hne : rows ≠ [] := by
      intro hnil
      subst hnil
      simp at hrow
    have hwne : whenNonEmpty (some rows) durationCheck = durationCheck rows := by
      simp [whenNonEmpty, hne]
    rw [hwne]
    unfold durationCheck forEachIssues
    rw [countP_forEachIssuesGo_pin (i := i) (by
      intro j r e he hq
      split at he
      · simp only [List.mem_singleton] at he
        subst he
        simp [isColRangeErrAt] at hq
        omega
      · simp at he) 0 rows]
    simp only [Nat.zero_le, if_true, Nat.sub_zero, hrow]
    split
    · simp [isColRangeErrAt]
    · simp
  · subst hw
    rw [validateDataE_rangeMsg_count h _
      (fun e hq => by simp [isColRangeErrAt] at hq; tauto)]
    have zp : (whenNonEmpty c priorityCheck).countP
        (isColRangeErrAt .workers "MaxLoadPerPhase" .maxLoadRange i) = 0 := by
      refine countP_zero_of_shape fun e he => ?_
      obtain ⟨rws, -, he⟩ := mem_whenNonEmpty he
      obtain ⟨hm, -⟩ := priorityCheck_shape _ he
      rw [hm]
      simp [isColRangeErrAt]
    have zd : (whenNonEmpty t durationCheck).countP
        (isColRangeErrAt .workers "MaxLoadPerPhase" .maxLoadRange i) = 0 := by
      refine countP_zero_of_shape fun e he => ?_
      obtain ⟨rws, -, he⟩ := mem_whenNonEmpty he
      simp [isColRangeErrAt, durationCheck_shape _ he]
    rw [zp, zd]
    have hne : rows ≠ [] := by
      intro hnil
      subst hnil
      simp at hrow
    have hwne : whenNonEmpty (some rows) maxLoadCheck = maxLoadCheck rows := by
      simp [whenNonEmpty, hne]
    rw [hwne]
    unfold maxLoadCheck forEachIssues
    rw [countP_forEachIssuesGo_pin (i := i) (by
      intro j r e he hq
      split at he
      · simp only [List.mem_singleton] at he
        subst he
        simp [isColRangeErrAt] at hq
        omega
      · simp at he) 0 rows]
    simp only [Nat.zero_le, if_true, Nat.sub_zero, hrow]
    split
    · simp [isColRangeErrAt]
    · simp

/-- C4 counterexample: the fractional `PriorityLevel` `"2.5"` — not an
integer in `[1,5]` — produces no error on the `PriorityLevel` column at
all, because `Number("2.5") = 2.5` lies inside the coerced range. -/
theorem C4_counterexample :
    (validateDataE (some [clientP25]) none none).map
        (fun es => es.countP fun e => e.column == some "PriorityLevel") = .ok 0 ∧
      strToNumber "2.5" = some (mkRat 5 2) ∧ (mkRat 5 2).den ≠ 1 := by
  refine ⟨by decide, by decide, by decide⟩

/-- C4 witness: a client with `PriorityLevel = 6` yields exactly one range
error on `PriorityLevel` at its row. -/
theorem C4_witness :
    (validateDataE (some [clientP6]) none none).map
        (fun es => es.countP
          (isColRangeErrAt .clients "PriorityLevel" .priorityRange 0)) = .ok 1 := by
  cases hx : validateDataE (some [clientP6]) none none with
  | error e =>
    cases e
    exact absurd hx (by decide)
  | ok es =>
    have hc := (C4_range_errors_amended hx).1 [clientP6] 0 clientP6 rfl (by decide)
    simp only [Except.map, hc]
    norm_num
    decide
-- Any predicate implying an unknown-task-reference message counts only
-- check 6 inside `validateData`.
set_option maxHeartbeats 2000000 in
theorem validateDataE_unknownRefMsg_count {c w t : Option (List Row)}
    {es : List VIssue} (h : validateDataE c w t = .ok es) (p : VIssue → Bool)
    (hp : ∀ e, p e = true → ∃ tid, e.message = .unknownTaskRef tid) :
    ∃ e6, whenBothM c t refsCheck = .ok e6 ∧ es.countP p = e6.countP p := by
  obtain ⟨e6, e65, e9, e10, e11, e12, e132, h6, h65, h9, h10, h11, h12, h132, hes⟩ :=
    validateDataE_ok_decomp h
  refine ⟨e6, h6, ?_⟩
  rw [hes]
  have hz : ∀ (l : List VIssue),
      (∀ e ∈ l, ∀ tid, e.message ≠ .unknownTaskRef tid) → l.countP p = 0 := by
    intro l hl
    refine countP_zero_of_shape fun e he => ?_
    by_contra hb
    obtain ⟨tid, hm⟩ := hp e (by simpa using hb)
    exact hl e he tid hm
  have z1 : ∀ ent cols tt, (whenNonEmpty tt (missingColsCheck ent cols)).countP p = 0 := by
    intro ent cols tt
    refine hz _ fun e he tid => ?_
    obtain ⟨rows, -, he⟩ := mem_whenNonEmpty he
    obtain ⟨col, hm⟩ := missingColsCheck_shape _ he
    simp [hm]
  have z2 : ∀ ent idCol tt, (whenNonEmpty tt (dupIdCheck ent idCol)).countP p = 0 := by
    intro ent idCol tt
    refine hz _ fun e he tid => ?_
    obtain ⟨rows, -, he⟩ := mem_whenNonEmpty he
    obtain ⟨i, v, hm⟩ := dupIdCheck_shape _ he
    subst hm
    simp
  have z3 : (whenNonEmpty w slotsCheck).countP p = 0 := by
    refine hz _ fun e he tid => ?_
    obtain ⟨rows, -, he⟩ := mem_whenNonEmpty he
    rcases slotsCheck_shape _ he with hm | hm | hm <;> simp [hm]
  have z4a : (whenNonEmpty c priorityCheck).countP p = 0 := by
    refine hz _ fun e he tid => ?_
    obtain ⟨rows, -, he⟩ := mem_whenNonEmpty he
    obtain ⟨hm, -⟩ := priorityCheck_shape _ he
    rw [hm]
    simp
  have z4b : (whenNonEmpty t durationCheck).countP p = 0 := by
    refine hz _ fun e he tid => ?_
    obtain ⟨rows, -, he⟩ := mem_whenNonEmpty he
    simp [durationCheck_shape _ he]
  have z4c : (whenNonEmpty w maxLoadCheck).countP p = 0 := by
    refine hz _ fun e he tid => ?_
    obtain ⟨rows, -, he⟩ := mem_whenNonEmpty he
    simp [maxLoadCheck_shape _ he]
  have z5 : (whenNonEmpty c attrsCheck).countP p = 0 := by
    refine hz _ fun e he tid => ?_
    obtain ⟨rows, -, he⟩ := mem_whenNonEmpty he
    simp [attrsCheck_shape _ he]
  have z65 : e65.countP p = 0 := by
    refine hz _ fun e he tid => ?_
    obtain ⟨rows, -, h65'⟩ := whenNonEmptyM_ok_mem h65 he
    obtain ⟨v, hm⟩ := taskIdFormatRefCheck_shape h65' e he
    simp [hm]
  have z8 : (whenNonEmpty w overloadCheck).countP p = 0 := by
    refine hz _ fun e he tid => ?_
    obtain ⟨rows, -, he⟩ := mem_whenNonEmpty he
    obtain ⟨m, l, hm⟩ := overloadCheck_shape _ he
    simp [hm]
  have z9 : e9.countP p = 0 := by
    refine hz _ fun e he tid => ?_
    obtain ⟨r1, r2, -, -, h9'⟩ := whenBothM_ok_mem h9 he
    obtain ⟨ph, d, sl, hm, -⟩ := saturationCheck_shape h9' e he
    subst hm
    simp
  have z10 : e10.countP p = 0 := by
    refine hz _ fun e he tid => ?_
    obtain ⟨r1, r2, -, -, h10'⟩ := whenBothM_ok_mem h10 he
    obtain ⟨sk, hm⟩ := skillCoverageCheck_shape h10' e he
    simp [hm]
  have z11 : e11.countP p = 0 := by
    refine hz _ fun e he tid => ?_
    obtain ⟨r1, r2, -, -, h11'⟩ := whenBothM_ok_mem h11 he
    obtain ⟨m, q, hm⟩ := maxConcurrencyCheck_shape h11' e he
    simp [hm]
  have z12 : e12.countP p = 0 := by
    refine hz _ fun e he tid => ?_
    obtain ⟨rows, -, h12'⟩ := whenNonEmptyM_ok_mem h12 he
    simp [preferredPhasesCheck_shape h12' e he]
  have z131 : (whenNonEmpty c groupTagCheck).countP p = 0 := by
    refine hz _ fun e he tid => ?_
    obtain ⟨rows, -, he⟩ := mem_whenNonEmpty he
    obtain ⟨v, hm⟩ := groupTagCheck_shape _ he
    simp [hm]
  have z132 : e132.countP p = 0 := by
    refine hz _ fun e he tid => ?_
    obtain ⟨rows, -, h132'⟩ := whenNonEmptyM_ok_mem h132 he
    simp [clientNameCheck_shape h132' e he]
  have zIdF : ∀ ent c0 idCol mk tt, (∀ v tid, mk v ≠ Msg.unknownTaskRef tid) →
      (whenNonEmpty tt (idFormatCheck ent c0 idCol mk)).countP p = 0 := by
    intro ent c0 idCol mk tt hmk
    refine hz _ fun e he tid => ?_
    obtain ⟨rows, -, he⟩ := mem_whenNonEmpty he
    obtain ⟨v, hm⟩ := idFormatCheck_shape _ he
    rw [hm]
    exact hmk v tid
  simp only [List.countP_append, z1, z2, z3, z4a, z4b, z4c, z5, z65, z8, z9,
    z10, z11, z12, z131, z132,
    zIdF .tasks 'T' "TaskID" .invalidTaskIdFormat t (by intro v tid; simp),
    zIdF .workers 'W' "WorkerID" .invalidWorkerIdFormat w (by intro v tid; simp),
    zIdF .clients 'C' "ClientID" .invalidClientIdFormat c (by intro v tid; simp)]
  ring

-- Any predicate implying a saturation message counts only check 9.
set_option maxHeartbeats 2000000 in
theorem validateDataE_satMsg_count {c w t : Option (List Row)}
    {es : List VIssue} (h : validateDataE c w t = .ok es) (p : VIssue → Bool)
    (hp : ∀ e, p e = true → ∃ ph d sl, e.message = .saturation ph d sl) :
    ∃ e9, whenBothM w t saturationCheck = .ok e9 ∧ es.countP p = e9.countP p := by
  obtain ⟨e6, e65, e9, e10, e11, e12, e132, h6, h65, h9, h10, h11, h12, h132, hes⟩ :=
    validateDataE_ok_decomp h
  refine ⟨e9, h9, ?_⟩
  rw [hes]
  have hz : ∀ (l : List VIssue),
      (∀ e ∈ l, ∀ ph d sl, e.message ≠ .saturation ph d sl) → l.countP p = 0 := by
    intro l hl
    refine countP_zero_of_shape fun e he => ?_
    by_contra hb
    obtain ⟨ph, d, sl, hm⟩ := hp e (by simpa using hb)
    exact hl e he ph d sl hm
  have z1 : ∀ ent cols tt, (whenNonEmpty tt (missingColsCheck ent cols)).countP p = 0 := by
    intro ent cols tt
    refine hz _ fun e he ph d sl => ?_
    obtain ⟨rows, -, he⟩ := mem_whenNonEmpty he
    obtain ⟨col, hm⟩ := missingColsCheck_shape _ he
    simp [hm]
  have z2 : ∀ ent idCol tt, (whenNonEmpty tt (dupIdCheck ent idCol)).countP p = 0 := by
    intro ent idCol tt
    refine hz _ fun e he ph d sl => ?_
    obtain ⟨rows, -, he⟩ := mem_whenNonEmpty he
    obtain ⟨i, v, hm⟩ := dupIdCheck_shape _ he
    subst hm
    simp
  have z3 : (whenNonEmpty w slotsCheck).countP p = 0 := by
    refine hz _ fun e he ph d sl => ?_
    obtain ⟨rows, -, he⟩ := mem_whenNonEmpty he
    rcases slotsCheck_shape _ he with hm | hm | hm <;> simp [hm]
  have z4a : (whenNonEmpty c priorityCheck).countP p = 0 := by
    refine hz _ fun e he ph d sl => ?_
    obtain ⟨rows, -, he⟩ := mem_whenNonEmpty he
    obtain ⟨hm, -⟩ := priorityCheck_shape _ he
    rw [hm]
    simp
  have z4b : (whenNonEmpty t durationCheck).countP p = 0 := by
    refine hz _ fun e he ph d sl => ?_
    obtain ⟨rows, -, he⟩ := mem_whenNonEmpty he
    simp [durationCheck_shape _ he]
  have z4c : (whenNonEmpty w maxLoadCheck).countP p = 0 := by
    refine hz _ fun e he ph d sl => ?_
    obtain ⟨rows, -, he⟩ := mem_whenNonEmpty he
    simp [maxLoadCheck_shape _ he]
  have z5 : (whenNonEmpty c attrsCheck).countP p = 0 := by
    refine hz _ fun e he ph d sl => ?_
    obtain ⟨rows, -, he⟩ := mem_whenNonEmpty he
    simp [attrsCheck_shape _ he]
  have z6 : e6.countP p = 0 := by
    refine hz _ fun e he ph d sl => ?_
    obtain ⟨r1, r2, -, -, h6'⟩ := whenBothM_ok_mem h6 he
    obtain ⟨i, tid, hm⟩ := refsCheck_shape h6' e he
    subst hm
    simp
  have z65 : e65.countP p = 0 := by
    refine hz _ fun e he ph d sl => ?_
    obtain ⟨rows, -, h65'⟩ := whenNonEmptyM_ok_mem h65 he
    obtain ⟨v, hm⟩ := taskIdFormatRefCheck_shape h65' e he
    simp [hm]
  have z8 : (whenNonEmpty w overloadCheck).countP p = 0 := by
    refine hz _ fun e he ph d sl => ?_
    obtain ⟨rows, -, he⟩ := mem_whenNonEmpty he
    obtain ⟨m, l, hm⟩ := overloadCheck_shape _ he
    simp [hm]
  have z10 : e10.countP p = 0 := by
    refine hz _ fun e he ph d sl => ?_
    obtain ⟨r1, r2, -, -, h10'⟩ := whenBothM_ok_mem h10 he
    obtain ⟨sk, hm⟩ := skillCoverageCheck_shape h10' e he
    simp [hm]
  have z11 : e11.countP p = 0 := by
    refine hz _ fun e he ph d sl => ?_
    obtain ⟨r1, r2, -, -, h11'⟩ := whenBothM_ok_mem h11 he
    obtain ⟨m, q, hm⟩ := maxConcurrencyCheck_shape h11' e he
    simp [hm]
  have z12 : e12.countP p = 0 := by
    refine hz _ fun e he ph d sl => ?_
    obtain ⟨rows, -, h12'⟩ := whenNonEmptyM_ok_mem h12 he
    simp [preferredPhasesCheck_shape h12' e he]
  have z131 : (whenNonEmpty c groupTagCheck).countP p = 0 := by
    refine hz _ fun e he ph d sl => ?_
    obtain ⟨rows, -, he⟩ := mem_whenNonEmpty he
    obtain ⟨v, hm⟩ := groupTagCheck_shape _ he
    simp [hm]
  have z132 : e132.countP p = 0 := by
    refine hz _ fun e he ph d sl => ?_
    obtain ⟨rows, -, h132'⟩ := whenNonEmptyM_ok_mem h132 he
    simp [clientNameCheck_shape h132' e he]
  have zIdF : ∀ ent c0 idCol mk tt, (∀ v ph d sl, mk v ≠ Msg.saturation ph d sl) →
      (whenNonEmpty tt (idFormatCheck ent c0 idCol mk)).countP p = 0 := by
    intro ent c0 idCol mk tt hmk
    refine hz _ fun e he ph d sl => ?_
    obtain ⟨rows, -, he⟩ := mem_whenNonEmpty he
    obtain ⟨v, hm⟩ := idFormatCheck_shape _ he
    rw [hm]
    exact hmk v ph d sl
  simp only [List.countP_append, z1, z2, z3, z4a, z4b, z4c, z5, z6, z65, z8,
    z10, z11, z12, z131, z132,
    zIdF .tasks 'T' "TaskID" .invalidTaskIdFormat t (by intro v ph d sl; simp),
    zIdF .workers 'W' "WorkerID" .invalidWorkerIdFormat w (by intro v ph d sl; simp),
    zIdF .clients 'C' "ClientID" .invalidClientIdFormat c (by intro v ph d sl; simp)]
  ring

-- Any predicate implying a duplicate-id message counts only the three
-- duplicate checks.
set_option maxHeartbeats 2000000 in
theorem validateDataE_dupMsg_count {c w t : Option (List Row)}
    {es : List VIssue} (h : validateDataE c w t = .ok es) (p : VIssue → Bool)
    (hp : ∀ e, p e = true → ∃ col v, e.message = .duplicateId col v) :
    es.countP p = (whenNonEmpty c (dupIdCheck .clients "ClientID")).countP p +
      (whenNonEmpty w (dupIdCheck .workers "WorkerID")).countP p +
      (whenNonEmpty t (dupIdCheck .tasks "TaskID")).countP p := by
  obtain ⟨e6, e65, e9, e10, e11, e12, e132, h6, h65, h9, h10, h11, h12, h132, hes⟩ :=
    validateDataE_ok_decomp h
  rw [hes]
  have hz : ∀ (l : List VIssue),
      (∀ e ∈ l, ∀ col v, e.message ≠ .duplicateId col v) → l.countP p = 0 := by
    intro l hl
    refine countP_zero_of_shape fun e he => ?_
    by_contra hb
    obtain ⟨col, v, hm⟩ := hp e (by simpa using hb)
    exact hl e he col v hm
  have z1 : ∀ ent cols tt, (whenNonEmpty tt (missingColsCheck ent cols)).countP p = 0 := by
    intro ent cols tt
    refine hz _ fun e he col v => ?_
    obtain ⟨rows, -, he⟩ := mem_whenNonEmpty he
    obtain ⟨col', hm⟩ := missingColsCheck_shape _ he
    simp [hm]
  have z3 : (whenNonEmpty w slotsCheck).countP p = 0 := by
    refine hz _ fun e he col v => ?_
    obtain ⟨rows, -, he⟩ := mem_whenNonEmpty he
    rcases slotsCheck_shape _ he with hm | hm | hm <;> simp [hm]
  have z4a : (whenNonEmpty c priorityCheck).countP p = 0 := by
    refine hz _ fun e he col v => ?_
    obtain ⟨rows, -, he⟩ := mem_whenNonEmpty he
    obtain ⟨hm, -⟩ := priorityCheck_shape _ he
    rw [hm]
    simp
  have z4b : (whenNonEmpty t durationCheck).countP p = 0 := by
    refine hz _ fun e he col v => ?_
    obtain ⟨rows, -, he⟩ := mem_whenNonEmpty he
    simp [durationCheck_shape _ he]
  have z4c : (whenNonEmpty w maxLoadCheck).countP p = 0 := by
    refine hz _ fun e he col v => ?_
    obtain ⟨rows, -, he⟩ := mem_whenNonEmpty he
    simp [maxLoadCheck_shape _ he]
  have z5 : (whenNonEmpty c attrsCheck).countP p = 0 := by
    refine hz _ fun e he col v => ?_
    obtain ⟨rows, -, he⟩ := mem_whenNonEmpty he
    simp [attrsCheck_shape _ he]
  have z6 : e6.countP p = 0 := by
    refine hz _ fun e he col v => ?_
    obtain ⟨r1, r2, -, -, h6'⟩ := whenBothM_ok_mem h6 he
    obtain ⟨i, tid, hm⟩ := refsCheck_shape h6' e he
    subst hm
    simp
  have z65 : e65.countP p = 0 := by
    refine hz _ fun e he col v => ?_
    obtain ⟨rows, -, h65'⟩ := whenNonEmptyM_ok_mem h65 he
    obtain ⟨v', hm⟩ := taskIdFormatRefCheck_shape h65' e he
    simp [hm]
  have z8 : (whenNonEmpty w overloadCheck).countP p = 0 := by
    refine hz _ fun e he col v => ?_
    obtain ⟨rows, -, he⟩ := mem_whenNonEmpty he
    obtain ⟨m, l, hm⟩ := overloadCheck_shape _ he
    simp [hm]
  have z9 : e9.countP p = 0 := by
    refine hz _ fun e he col v => ?_
    obtain ⟨r1, r2, -, -, h9'⟩ := whenBothM_ok_mem h9 he
    obtain ⟨ph, d, sl, hm, -⟩ := saturationCheck_shape h9' e he
    subst hm
    simp
  have z10 : e10.countP p = 0 := by
    refine hz _ fun e he col v => ?_
    obtain ⟨r1, r2, -, -, h10'⟩ := whenBothM_ok_mem h10 he
    obtain ⟨sk, hm⟩ := skillCoverageCheck_shape h10' e he
    simp [hm]
  have z11 : e11.countP p = 0 := by
    refine hz _ fun e he col v => ?_
    obtain ⟨r1, r2, -, -, h11'⟩ := whenBothM_ok_mem h11 he
    obtain ⟨m, q, hm⟩ := maxConcurrencyCheck_shape h11' e he
    simp [hm]
  have z12 : e12.countP p = 0 := by
    refine hz _ fun e he col v => ?_
    obtain ⟨rows, -, h12'⟩ := whenNonEmptyM_ok_mem h12 he
    simp [preferredPhasesCheck_shape h12' e he]
  have z131 : (whenNonEmpty c groupTagCheck).countP p = 0 := by
    refine hz _ fun e he col v => ?_
    obtain ⟨rows, -, he⟩ := mem_whenNonEmpty he
    obtain ⟨v', hm⟩ := groupTagCheck_shape _ he
    simp [hm]
  have z132 : e132.countP p = 0 := by
    refine hz _ fun e he col v => ?_
    obtain ⟨rows, -, h132'⟩ := whenNonEmptyM_ok_mem h132 he
    simp [clientNameCheck_shape h132' e he]
  have zIdF : ∀ ent c0 idCol mk tt, (∀ v' col v, mk v' ≠ Msg.duplicateId col v) →
      (whenNonEmpty tt (idFormatCheck ent c0 idCol mk)).countP p = 0 := by
    intro ent c0 idCol mk tt hmk
    refine hz _ fun e he col v => ?_
    obtain ⟨rows, -, he⟩ := mem_whenNonEmpty he
    obtain ⟨v', hm⟩ := idFormatCheck_shape _ he
    rw [hm]
    exact hmk v' col v
  simp only [List.countP_append, z1, z3, z4a, z4b, z4c, z5, z6, z65, z8, z9,
    z10, z11, z12, z131, z132,
    zIdF .tasks 'T' "TaskID" .invalidTaskIdFormat t (by intro x col v; simp),
    zIdF .workers 'W' "WorkerID" .invalidWorkerIdFormat w (by intro x col v; simp),
    zIdF .clients 'C' "ClientID" .invalidClientIdFormat c (by intro x col v; simp)]
  ring
/-- Bounded membership: issues of the indexed monadic loop come from some
row index `≥ n`. -/
theorem mem_forEachIssuesMGo_le {f : ℕ → Row → Except Unit (List VIssue)} :
    ∀ {n rows es e}, forEachIssuesMGo f n rows = .ok es → e ∈ es →
      ∃ j r es', n ≤ j ∧ f j r = .ok es' ∧ e ∈ es' := by
  intro n rows
  induction rows generalizing n with
  | nil =>
    intro es e h he
    simp only [forEachIssuesMGo] at h
    cases h
    simp at he
  | cons row rest ih =>
    intro es e h he
    simp only [forEachIssuesMGo] at h
    rcases except_bind_ok.mp h with ⟨es1, h1, h2⟩
    rcases except_bind_ok.mp h2 with ⟨es2, h3, h4⟩
    cases h4
    rcases List.mem_append.mp he with hm | hm
    · exact ⟨n, row, es1, Nat.le_refl n, h1, hm⟩
    · obtain ⟨j, r, es', hj, hok, hm'⟩ := ih h3 hm
      exact ⟨j, r, es', Nat.le_of_succ_le hj, hok, hm'⟩

/-- Count of a row-pinned predicate over the monadic row loop. -/
theorem countP_forEachIssuesMGo_pin {f : ℕ → Row → Except Unit (List VIssue)}
    {p : VIssue → Bool} {i : ℕ}
    (hpin : ∀ j r es' e, f j r = .ok es' → e ∈ es' → p e = true → j = i) :
    ∀ (n : ℕ) (rows : List Row) (es : List VIssue),
      forEachIssuesMGo f n rows = .ok es →
      es.countP p = if n ≤ i then
        (match rows[i - n]? with
          | some row =>
            (match f i row with
              | .ok esi => esi.countP p
              | .error _ => 0)
          | none => 0)
      else 0 := by
  intro n rows
  induction rows generalizing n with
  | nil =>
    intro es h
    simp only [forEachIssuesMGo] at h
    cases h
    simp
  | cons row rest ih =>
    intro es h
    simp only [forEachIssuesMGo] at h
    rcases except_bind_ok.mp h with ⟨es1, h1, h2⟩
    rcases except_bind_ok.mp h2 with ⟨es2, h3, h4⟩
    cases h4
    rw [List.countP_append]
    rcases Nat.lt_trichotomy n i with hlt | heq | hgt
    · have z1 : es1.countP p = 0 :=
        countP_zero_of_shape fun e he => by
          by_contra hb
          exact absurd (hpin n row es1 e h1 he (by simpa using hb))
            (Nat.ne_of_lt hlt)
      rw [z1, ih (n + 1) es2 h3]
      have hle : n ≤ i := Nat.le_of_lt hlt
      have hle2 : n + 1 ≤ i := hlt
      have hidx : i - n = (i - (n + 1)) + 1 := by omega
      simp only [if_pos hle, if_pos hle2, hidx, List.getElem?_cons_succ, Nat.zero_add]
    · subst heq
      have z2 : es2.countP p = 0 :=
        countP_zero_of_shape fun e he => by
          by_contra hb
          obtain ⟨j, r, es', hj, hok, hm⟩ := mem_forEachIssuesMGo_le h3 he
          exact absurd (hpin j r es' e hok hm (by simpa using hb)) (by omega)
      rw [z2]
      simp [Nat.sub_self, h1]
    · have z1 : es1.countP p = 0 :=
        countP_zero_of_shape fun e he => by
          by_contra hb
          exact absurd (hpin n row es1 e h1 he (by simpa using hb)) (by omega)
      have z2 : es2.countP p = 0 :=
        countP_zero_of_shape fun e he => by
          by_contra hb
          obtain ⟨j, r, es', hj, hok, hm⟩ := mem_forEachIssuesMGo_le h3 he
          exact absurd (hpin j r es' e hok hm (by simpa using hb)) (by omega)
      rw [z1, z2]
      have : ¬ (n ≤ i) := by omega
      simp [this]

/-- The predicate of claim C5: the unknown-reference issue for token `tid`
at client row `i`. -/
def isUnknownRefAt (i : ℕ) (tid : String) (e : VIssue) : Bool :=
  (e.entity == .clients) && (e.rowIndex == some i) &&
    (e.column == some "RequestedTaskIDs") &&
    (e.message == .unknownTaskRef tid) && (e.severity == .error)

/-- Token-by-token count of the unknown-reference issues of one client row. -/
theorem unknownRef_flatMap_count (taskIDs : List JVal) (i : ℕ) (tid : String) :
    ∀ tags : List String,
      (tags.flatMap fun tid' => if taskIDs.contains (JVal.str tid') then []
        else [⟨.clients, some i, some "RequestedTaskIDs", .unknownTaskRef tid',
          .error⟩]).countP (isUnknownRefAt i tid) =
      if taskIDs.contains (.str tid) then 0 else tags.count tid := by
  intro tags
  induction tags with
  | nil => simp
  | cons tid' tags ih =>
    rw [List.flatMap_cons, List.countP_append, ih]
    by_cases heq : tid' = tid
    · subst heq
      by_cases hmem : JVal.str tid' ∈ taskIDs
      · simp [hmem]
      · have h1 : (isUnknownRefAt i tid')
            ⟨.clients, some i, some "RequestedTaskIDs", .unknownTaskRef tid',
              .error⟩ = true := by
          simp [isUnknownRefAt]
        simp [hmem, List.countP_cons, h1, List.count_cons_self]
        omega
    · have hne : tid ≠ tid' := fun hh => heq hh.symm
      have hcnt : (tid' :: tags).count tid = tags.count tid := by
        simp [List.count_cons, hne]
      rw [hcnt]
      by_cases hmem : JVal.str tid' ∈ taskIDs
      · simp [hmem]
      · have h0 : (isUnknownRefAt i tid)
            ⟨.clients, some i, some "RequestedTaskIDs", .unknownTaskRef tid',
              .error⟩ = false := by
          simp [isUnknownRefAt, heq]
        simp [hmem, List.countP_cons, h0]

/-- C5 amended: when both the clients table and the tasks table are
non-empty, each occurrence of a token in a client's split
`RequestedTaskIDs` that does not occur among the tasks' raw `TaskID` cells
produces exactly one unknown-reference error at that client's row; when the
tasks table is empty the reference check is skipped entirely and no
unknown-reference issue is produced at all. -/
theorem C5_unknown_refs_amended {c w t : Option (List Row)} {es : List VIssue}
    (h : validateDataE c w t = .ok es) :
    (∀ cs ts, c = some cs → t = some ts → cs ≠ [] → ts ≠ [] →
      ∀ i row, cs[i]? = some row →
        ∀ tags, splitTags (getCell row "RequestedTaskIDs") = .ok tags →
          ∀ tid, es.countP (isUnknownRefAt i tid) =
            if (ts.map fun r => getCell r "TaskID").contains (.str tid) then 0
            else tags.count tid) ∧
    (t = some [] → es.countP isUnknownRefMsg = 0) := by
  constructor
  · intro cs ts hc ht hcne htne i row hrow tags htags tid
    obtain ⟨e6, h6, hcount⟩ := validateDataE_unknownRefMsg_count h
      (isUnknownRefAt i tid) (fun e hq => by
        simp [isUnknownRefAt] at hq
        exact ⟨tid, by tauto⟩)
    rw [hcount]
    subst hc
    subst ht
    have h6' : refsCheck cs ts = .ok e6 := by
      simpa [whenBothM, hcne, htne] using h6
    unfold refsCheck forEachIssuesM at h6'
    rw [countP_forEachIssuesMGo_pin (i := i) (by
      intro j r es' e hok he hq
      rcases except_bind_ok.mp hok with ⟨tags', htg, hpure⟩
      simp only [pure, Except.pure, Except.ok.injEq] at hpure
      subst hpure
      simp only [List.mem_flatMap] at he
      rcases he with ⟨tid', -, hm⟩
      split at hm
      · simp at hm
      · simp only [List.mem_singleton] at hm
        subst hm
        simp [isUnknownRefAt] at hq
        omega) 0 cs e6 h6']
    simp only [Nat.zero_le, if_true, Nat.sub_zero, hrow]
    have hfi : (do
        let requested ← splitTags (getCell row "RequestedTaskIDs")
        pure (requested.flatMap fun tid' =>
          if (ts.map fun tk => getCell tk "TaskID").contains (.str tid') then []
          else [⟨.clients, some i, some "RequestedTaskIDs",
            .unknownTaskRef tid', .error⟩]) :
        Except Unit (List VIssue)) = .ok (tags.flatMap fun tid' =>
          if (ts.map fun tk => getCell tk "TaskID").contains (.str tid') then []
          else [⟨.clients, some i, some "RequestedTaskIDs",
            .unknownTaskRef tid', .error⟩]) := by
      rw [htags]
      rfl
    rw [hfi]
    exact unknownRef_flatMap_count (ts.map fun tk => getCell tk "TaskID") i tid tags
  · intro ht
    obtain ⟨e6, h6, hcount⟩ := validateDataE_unknownRefMsg_count h
      isUnknownRefMsg (fun e hq => by
        unfold isUnknownRefMsg at hq
        split at hq
        · exact ⟨_, by assumption⟩
        · simp at hq)
    rw [hcount]
    subst ht
    cases c with
    | none =>
      simp only [whenBothM, Except.ok.injEq] at h6
      subst h6
      simp
    | some cs =>
      simp only [whenBothM, or_true, if_true] at h6
      simp only [Except.ok.injEq] at h6
      subst h6
      simp

/-- A client row requesting the nonexistent task `T9`. -/
def clientReqT9 : Row :=
  [("ClientID", .str "C1"), ("ClientName", .str "Acme"),
    ("PriorityLevel", .str "5"), ("RequestedTaskIDs", .str "T9"),
    ("GroupTag", .str "GroupA"), ("AttributesJSON", .str "\x7b\x7d")]

/-- C5 witness: with tasks `[T1]` and a client requesting `T9`, exactly one
unknown-reference issue appears at the client's row. -/
theorem C5_witness :
    (validateDataE (some [clientReqT9]) none (some [taskT1])).map
      (fun es => es.countP (isUnknownRefAt 0 "T9")) = .ok 1 := by
  cases hx : validateDataE (some [clientReqT9]) none (some [taskT1]) with
  | error e =>
    cases e
    exact absurd hx (by decide)
  | ok es =>
    have hc := (C5_unknown_refs_amended hx).1 [clientReqT9] [taskT1] rfl rfl
      (by decide) (by decide) 0 clientReqT9 rfl ["T9"] (by decide) "T9"
    simp only [Except.map, hc]
    norm_num
    decide
/-- The predicate of claim C8 (per-value form): a duplicate-id error for
value `v` in a given entity/id column. -/
def isDupIssue (ent : Entity) (idCol : String) (v : JVal) (e : VIssue) : Bool :=
  (e.entity == ent) && (e.message == .duplicateId idCol v)

/-- The predicate of claim C8 (positional form): the duplicate-id error for
value `v` at row `i`. -/
def isDupIssueAt (ent : Entity) (idCol : String) (v : JVal) (i : ℕ)
    (e : VIssue) : Bool :=
  (e.entity == ent) && (e.rowIndex == some i) && (e.column == some idCol) &&
    (e.message == .duplicateId idCol v) && (e.severity == .error)

/-- Bridge from `List.contains` to membership for decidable-equality types. -/
theorem contains_iff_mem {α : Type} [DecidableEq α] (l : List α) (a : α) :
    l.contains a = true ↔ a ∈ l := List.elem_iff

/-- Total duplicate count of the `seen`-set fold: every occurrence of `v`
is flagged when `v` was already seen, all but the first otherwise. -/
theorem dupIdGo_countP_total (ent : Entity) (idCol : String) (v : JVal) :
    ∀ (seen : List JVal) (n : ℕ) (rows : List Row),
      (dupIdGo ent idCol seen n rows).countP (isDupIssue ent idCol v) =
        if v ∈ seen then (rows.map fun r => getCell r idCol).count v
        else (rows.map fun r => getCell r idCol).count v - 1 := by
  intro seen n rows
  induction rows generalizing seen n with
  | nil => simp [dupIdGo]
  | cons row rest ih =>
    simp only [dupIdGo, List.countP_append, List.map_cons, contains_iff_mem]
    by_cases huv : getCell row idCol = v
    · by_cases hseen : v ∈ seen
      · have hin : getCell row idCol ∈ seen := huv ▸ hseen
        rw [if_pos hin, ih]
        have hseen' : v ∈ getCell row idCol :: seen := List.mem_cons_of_mem _ hseen
        rw [if_pos hseen', if_pos hseen]
        have h1 : (isDupIssue ent idCol v)
            ⟨ent, some n, some idCol, .duplicateId idCol v, .error⟩ = true := by
          simp [isDupIssue]
        simp [List.countP_cons, h1, List.count_cons, huv]
        omega
      · have hnin : getCell row idCol ∉ seen := fun hh => hseen (huv ▸ hh)
        rw [if_neg hnin, ih]
        have hseen' : v ∈ getCell row idCol :: seen := by
          rw [huv]
          exact List.mem_cons_self _ _
        rw [if_pos hseen', if_neg hseen]
        simp [List.count_cons, huv]
    · by_cases hseen : v ∈ seen
      · have hmem : (v ∈ getCell row idCol :: seen) := List.mem_cons_of_mem _ hseen
        rw [ih, if_pos hmem, if_pos hseen]
        have h0 : ∀ e ∈ (if getCell row idCol ∈ seen then
            [⟨ent, some n, some idCol, .duplicateId idCol (getCell row idCol),
              .error⟩] else ([] : List VIssue)),
            isDupIssue ent idCol v e = false := by
          intro e he
          split at he
          · simp only [List.mem_singleton] at he
            subst he
            simp [isDupIssue, huv]
          · simp at he
        rw [countP_zero_of_shape h0]
        simp [List.count_cons, huv]
      · have hmem : v ∉ getCell row idCol :: seen := by
          simp [List.mem_cons, huv, hseen]
          exact fun hh => absurd hh.symm huv
        rw [ih, if_neg hmem, if_neg hseen]
        have h0 : ∀ e ∈ (if getCell row idCol ∈ seen then
            [⟨ent, some n, some idCol, .duplicateId idCol (getCell row idCol),
              .error⟩] else ([] : List VIssue)),
            isDupIssue ent idCol v e = false := by
          intro e he
          split at he
          · simp only [List.mem_singleton] at he
            subst he
            simp [isDupIssue, huv]
          · simp at he
        rw [countP_zero_of_shape h0]
        simp [List.count_cons, huv]

/-- Positional duplicate count: row `i` carries the duplicate error for `v`
iff it holds `v` and `v` occurred before (in `seen` or an earlier row). -/
theorem dupIdGo_countP_at (ent : Entity) (idCol : String) (v : JVal) (i : ℕ) :
    ∀ (seen : List JVal) (n : ℕ) (rows : List Row),
      (dupIdGo ent idCol seen n rows).countP (isDupIssueAt ent idCol v i) =
        if n ≤ i then
          (match rows[i - n]? with
            | some row =>
              if getCell row idCol = v ∧
                (v ∈ seen ∨
                  v ∈ ((rows.take (i - n)).map fun r => getCell r idCol))
              then 1 else 0
            | none => 0)
        else 0 := by
  intro seen n rows
  induction rows generalizing seen n with
  | nil =>
    simp only [dupIdGo, List.countP_nil]
    split <;> rfl
  | cons row rest ih =>
    simp only [dupIdGo, List.countP_append, contains_iff_mem]
    rcases Nat.lt_trichotomy n i with hlt | heqn | hgt
    · have hhead : (if getCell row idCol ∈ seen then
          [⟨ent, some n, some idCol, .duplicateId idCol (getCell row idCol),
            .error⟩] else ([] : List VIssue)).countP
            (isDupIssueAt ent idCol v i) = 0 := by
        refine countP_zero_of_shape fun e he => ?_
        split at he
        · simp only [List.mem_singleton] at he
          subst he
          simp [isDupIssueAt]
          omega
        · simp at he
      rw [hhead, ih]
      have h1 : n + 1 ≤ i := hlt
      have h2 : n ≤ i := le_of_lt hlt
      have hidx : i - n = (i - (n + 1)) + 1 := by omega
      simp only [if_pos h1, if_pos h2, hidx, List.getElem?_cons_succ,
        List.take_succ_cons, List.map_cons, Nat.zero_add]
      cases hrr : rest[i - (n + 1)]? with
      | none => rfl
      | some row' =>
        have hiff : (getCell row' idCol = v ∧
            (v ∈ getCell row idCol :: seen ∨
              v ∈ (rest.take (i - (n + 1))).map fun r => getCell r idCol)) ↔
            (getCell row' idCol = v ∧
            (v ∈ seen ∨ v ∈ getCell row idCol ::
              ((rest.take (i - (n + 1))).map fun r => getCell r idCol))) := by
          simp only [List.mem_cons]
          tauto
        simp only []
        rw [if_congr hiff rfl rfl]
    · subst heqn
      rw [ih]
      have hno : ¬ (n + 1 ≤ n) := by omega
      simp only [if_neg hno, if_pos (le_refl n), Nat.sub_self,
        List.getElem?_cons_zero, List.take_zero, List.map_nil,
        List.not_mem_nil, or_false, Nat.add_zero]
      split
      · rename_i hin
        by_cases huv : getCell row idCol = v
        · have h1 : (isDupIssueAt ent idCol v n)
              ⟨ent, some n, some idCol, .duplicateId idCol v, .error⟩ = true := by
            simp [isDupIssueAt]
          have hvin : v ∈ seen := huv ▸ hin
          simp [List.countP_cons, h1, huv, hvin]
        · have h0 : (isDupIssueAt ent idCol v n)
              ⟨ent, some n, some idCol, .duplicateId idCol (getCell row idCol),
                .error⟩ = false := by
            simp [isDupIssueAt, huv]
          simp [List.countP_cons, h0, huv]
      · rename_i hnin
        by_cases huv : getCell row idCol = v
        · have hvnin : ¬ (v ∈ seen) := fun hh => hnin (huv ▸ hh)
          simp [huv, hvnin]
        · simp [huv]
    · have hhead : (if getCell row idCol ∈ seen then
          [⟨ent, some n, some idCol, .duplicateId idCol (getCell row idCol),
            .error⟩] else ([] : List VIssue)).countP
            (isDupIssueAt ent idCol v i) = 0 := by
        refine countP_zero_of_shape fun e he => ?_
        split at he
        · simp only [List.mem_singleton] at he
          subst he
          simp [isDupIssueAt]
          omega
        · simp at he
      rw [hhead, ih]
      have h1 : ¬ (n + 1 ≤ i) := by omega
      have h2 : ¬ (n ≤ i) := by omega
      simp [if_neg h1, if_neg h2]
/-- A duplicate-id check of another entity contributes nothing to an
entity-pinned predicate. -/
theorem dupIdCheck_countP_other (ent ent' : Entity) (idCol' : String)
    (p : VIssue → Bool) (hp : ∀ e, p e = true → e.entity = ent)
    (hne : ent' ≠ ent) (o : Option (List Row)) :
    (whenNonEmpty o (dupIdCheck ent' idCol')).countP p = 0 := by
  refine countP_zero_of_shape fun e he => ?_
  obtain ⟨rws, -, he⟩ := mem_whenNonEmpty he
  obtain ⟨i, v', hm⟩ := dupIdCheck_shape _ he
  by_contra hb
  have hpt : p e = true := by revert hb; cases p e <;> simp
  have hent := hp e hpt
  rw [hm] at hent
  exact hne hent

/-- The guarded duplicate check counts `count v - 1` occurrences of `v`. -/
theorem dupIdCheck_countP_total (ent : Entity) (idCol : String) (v : JVal)
    (rows : List Row) :
    (whenNonEmpty (some rows) (dupIdCheck ent idCol)).countP
        (isDupIssue ent idCol v) =
      ((rows.map fun r => getCell r idCol).count v) - 1 := by
  by_cases hrw : rows = []
  · subst hrw
    simp [whenNonEmpty]
  · simp only [whenNonEmpty, if_neg hrw, dupIdCheck]
    rw [dupIdGo_countP_total]
    simp

/-- The guarded duplicate check flags row `i` iff it repeats an earlier id. -/
theorem dupIdCheck_countP_at (ent : Entity) (idCol : String) (v : JVal)
    (i : ℕ) (rows : List Row) :
    (whenNonEmpty (some rows) (dupIdCheck ent idCol)).countP
        (isDupIssueAt ent idCol v i) =
      if ((rows.map fun r => getCell r idCol)[i]? = some v ∧
          v ∈ (rows.take i).map fun r => getCell r idCol) then 1 else 0 := by
  by_cases hrw : rows = []
  · subst hrw
    simp [whenNonEmpty]
  · simp only [whenNonEmpty, if_neg hrw, dupIdCheck]
    rw [dupIdGo_countP_at]
    rw [if_pos (Nat.zero_le i)]
    simp only [Nat.sub_zero]
    cases hri : rows[i]? with
    | none =>
      simp [List.getElem?_map, hri]
    | some row =>
      simp only [List.getElem?_map, hri, Option.map_some, List.not_mem_nil,
        false_or]
      have hiff : (getCell row idCol = v ∧
          v ∈ (rows.take i).map fun r => getCell r idCol) ↔
          (some (getCell row idCol) = some v ∧
          v ∈ (rows.take i).map fun r => getCell r idCol) := by
        simp
      rw [if_congr hiff rfl rfl]
      simp

/-- C8: in every successful run, for each table and each id value `v`,
the number of duplicate-id errors for `v` is exactly (occurrences of `v`
in the id column) − 1 — so `N` rows sharing a value yield `N − 1` errors —
and the error pinned to row `i` exists iff row `i` holds `v` and `v`
already occurred in a strictly earlier row; in particular the first
occurrence is never flagged. -/
theorem C8_duplicate_id_errors {c w t : Option (List Row)} {es : List VIssue}
    (h : validateDataE c w t = .ok es) :
    (∀ rows v, c = some rows →
      es.countP (isDupIssue .clients "ClientID" v) =
        ((rows.map fun r => getCell r "ClientID").count v) - 1 ∧
      ∀ i, es.countP (isDupIssueAt .clients "ClientID" v i) =
        if ((rows.map fun r => getCell r "ClientID")[i]? = some v ∧
            v ∈ (rows.take i).map fun r => getCell r "ClientID")
        then 1 else 0) ∧
    (∀ rows v, w = some rows →
      es.countP (isDupIssue .workers "WorkerID" v) =
        ((rows.map fun r => getCell r "WorkerID").count v) - 1 ∧
      ∀ i, es.countP (isDupIssueAt .workers "WorkerID" v i) =
        if ((rows.map fun r => getCell r "WorkerID")[i]? = some v ∧
            v ∈ (rows.take i).map fun r => getCell r "WorkerID")
        then 1 else 0) ∧
    (∀ rows v, t = some rows →
      es.countP (isDupIssue .tasks "TaskID" v) =
        ((rows.map fun r => getCell r "TaskID").count v) - 1 ∧
      ∀ i, es.countP (isDupIssueAt .tasks "TaskID" v i) =
        if ((rows.map fun r => getCell r "TaskID")[i]? = some v ∧
            v ∈ (rows.take i).map fun r => getCell r "TaskID")
        then 1 else 0) := by
  refine ⟨fun rows v hc => ⟨?_, fun i => ?_⟩,
    fun rows v hw => ⟨?_, fun i => ?_⟩, fun rows v ht => ⟨?_, fun i => ?_⟩⟩
  · subst hc
    rw [validateDataE_dupMsg_count h (isDupIssue .clients "ClientID" v)
      (fun e hq => by
        simp [isDupIssue] at hq
        exact ⟨"ClientID", v, hq.2⟩)]
    rw [dupIdCheck_countP_other .clients .workers "WorkerID" _
      (fun e hq => by simp [isDupIssue] at hq; exact hq.1) (by decide) w]
    rw [dupIdCheck_countP_other .clients .tasks "TaskID" _
      (fun e hq => by simp [isDupIssue] at hq; exact hq.1) (by decide) t]
    rw [dupIdCheck_countP_total]
    omega
  · subst hc
    rw [validateDataE_dupMsg_count h (isDupIssueAt .clients "ClientID" v i)
      (fun e hq => by
        simp [isDupIssueAt] at hq
        exact ⟨"ClientID", v, by tauto⟩)]
    rw [dupIdCheck_countP_other .clients .workers "WorkerID" _
      (fun e hq => by simp [isDupIssueAt] at hq; tauto) (by decide) w]
    rw [dupIdCheck_countP_other .clients .tasks "TaskID" _
      (fun e hq => by simp [isDupIssueAt] at hq; tauto) (by decide) t]
    rw [dupIdCheck_countP_at]
    omega
  · subst hw
    rw [validateDataE_dupMsg_count h (isDupIssue .workers "WorkerID" v)
      (fun e hq => by
        simp [isDupIssue] at hq
        exact ⟨"WorkerID", v, hq.2⟩)]
    rw [dupIdCheck_countP_other .workers .clients "ClientID" _
      (fun e hq => by simp [isDupIssue] at hq; exact hq.1) (by decide) c]
    rw [dupIdCheck_countP_other .workers .tasks "TaskID" _
      (fun e hq => by simp [isDupIssue] at hq; exact hq.1) (by decide) t]
    rw [dupIdCheck_countP_total]
    omega
  · subst hw
    rw [validateDataE_dupMsg_count h (isDupIssueAt .workers "WorkerID" v i)
      (fun e hq => by
        simp [isDupIssueAt] at hq
        exact ⟨"WorkerID", v, by tauto⟩)]
    rw [dupIdCheck_countP_other .workers .clients "ClientID" _
      (fun e hq => by simp [isDupIssueAt] at hq; tauto) (by decide) c]
    rw [dupIdCheck_countP_other .workers .tasks "TaskID" _
      (fun e hq => by simp [isDupIssueAt] at hq; tauto) (by decide) t]
    rw [dupIdCheck_countP_at]
    omega
  · subst ht
    rw [validateDataE_dupMsg_count h (isDupIssue .tasks "TaskID" v)
      (fun e hq => by
        simp [isDupIssue] at hq
        exact ⟨"TaskID", v, hq.2⟩)]
    rw [dupIdCheck_countP_other .tasks .clients "ClientID" _
      (fun e hq => by simp [isDupIssue] at hq; exact hq.1) (by decide) c]
    rw [dupIdCheck_countP_other .tasks .workers "WorkerID" _
      (fun e hq => by simp [isDupIssue] at hq; exact hq.1) (by decide) w]
    rw [dupIdCheck_countP_total]
    omega
  · subst ht
    rw [validateDataE_dupMsg_count h (isDupIssueAt .tasks "TaskID" v i)
      (fun e hq => by
        simp [isDupIssueAt] at hq
        exact ⟨"TaskID", v, by tauto⟩)]
    rw [dupIdCheck_countP_other .tasks .clients "ClientID" _
      (fun e hq => by simp [isDupIssueAt] at hq; tauto) (by decide) c]
    rw [dupIdCheck_countP_other .tasks .workers "WorkerID" _
      (fun e hq => by simp [isDupIssueAt] at hq; tauto) (by decide) w]
    rw [dupIdCheck_countP_at]
    omega

/-- C8 witness: two clients sharing `ClientID = "C1"` yield exactly one
duplicate error, pinned to row 1, with row 0 unflagged. -/
theorem C8_witness :
    (validateDataE (some [clientC1T1, clientC1T1]) none none).map
        (fun es =>
          (es.countP (isDupIssue .clients "ClientID" (.str "C1")),
            es.countP (isDupIssueAt .clients "ClientID" (.str "C1") 1),
            es.countP (isDupIssueAt .clients "ClientID" (.str "C1") 0))) =
      .ok (1, 1, 0) := by
  cases hx : validateDataE (some [clientC1T1, clientC1T1]) none none with
  | error e =>
    cases e
    exact absurd hx (by decide)
  | ok es =>
    obtain ⟨hcl, -, -⟩ := C8_duplicate_id_errors hx
    obtain ⟨h1, h2⟩ := hcl [clientC1T1, clientC1T1] (.str "C1") rfl
    simp only [Except.map, h1, h2]
    decide
/-- The full saturation warning of claim C7: table-level warning on the
tasks entity naming the phase and both totals. -/
def isSatWarn (p : JVal) (d sl : Option ℚ) (e : VIssue) : Bool :=
  (e.entity == Entity.tasks) && (e.rowIndex == (none : Option ℕ)) &&
    (e.column == some "PreferredPhases") &&
    (e.message == .saturation p d sl) && (e.severity == Sev.warning)

/-- The insertion step of the phase-set fold preserves distinctness. -/
theorem insertPhases_nodup :
    ∀ (xs acc : List JVal), acc.Nodup →
      (xs.foldl (fun a s => if a.contains s then a else a ++ [s]) acc).Nodup := by
  intro xs
  induction xs with
  | nil => intro acc h; exact h
  | cons x xs ih =>
    intro acc h
    simp only [List.foldl_cons]
    by_cases hc : acc.contains x = true
    · rw [if_pos hc]
      exact ih acc h
    · rw [if_neg hc]
      refine ih _ ?_
      have hx : x ∉ acc := fun hm => hc ((contains_iff_mem _ _).2 hm)
      simp [List.nodup_append, h, hx]

/-- The phase set collected from the workers has no duplicates. -/
theorem allWorkerPhases_nodup (workers : List Row) :
    (allWorkerPhases workers).Nodup := by
  have hgen : ∀ (ws : List Row) (acc : List JVal), acc.Nodup →
      (ws.foldl (fun acc w =>
        match jsonParseVal (getCell w "AvailableSlots") with
        | some (.arr xs) =>
          xs.foldl (fun a s => if a.contains s then a else a ++ [s]) acc
        | _ => acc) acc).Nodup := by
    intro ws
    induction ws with
    | nil => intro acc h; exact h
    | cons wrow ws ih =>
      intro acc h
      simp only [List.foldl_cons]
      have hstep : ((match jsonParseVal (getCell wrow "AvailableSlots") with
          | some (.arr xs) =>
            xs.foldl (fun a s => if a.contains s then a else a ++ [s]) acc
          | _ => acc : List JVal)).Nodup := by
        split
        · exact insertPhases_nodup _ _ h
        · exact h
      exact ih _ hstep
  exact hgen workers [] List.nodup_nil

/-- Per-phase saturation count: each occurrence of `p` in the processed
phase list contributes exactly one warning when the total duration
strictly exceeds the total slots, and none otherwise. -/
theorem perPhaseIssues_countP {workers tasks : List Row} (p : JVal) :
    ∀ {ps : List JVal} {es' : List VIssue},
      perPhaseIssues workers tasks ps = .ok es' →
      es'.countP (isSatPhase p) =
        ps.count p * (match phaseTaskDuration tasks p with
          | .ok d => if optGt d (phaseWorkerSlots workers p) then 1 else 0
          | .error _ => 0) := by
  intro ps
  induction ps with
  | nil =>
    intro es' h
    simp only [perPhaseIssues] at h
    cases h
    simp
  | cons q ps ih =>
    intro es' h
    simp only [perPhaseIssues] at h
    rcases except_bind_ok.mp h with ⟨d, hd, h⟩
    rcases except_bind_ok.mp h with ⟨rest, hrest, hpure⟩
    simp only [pure, Except.pure, Except.ok.injEq] at hpure
    subst hpure
    simp only [List.countP_append]
    rw [ih hrest]
    by_cases hqp : q = p
    · subst hqp
      have hF : (match phaseTaskDuration tasks q with
          | .ok d => if optGt d (phaseWorkerSlots workers q) then 1 else 0
          | .error _ => (0 : ℕ)) =
          if optGt d (phaseWorkerSlots workers q) then 1 else 0 := by
        rw [hd]
      have hhead : (if optGt d (phaseWorkerSlots workers q) then
          [⟨.tasks, none, some "PreferredPhases",
            .saturation q d (phaseWorkerSlots workers q), .warning⟩]
          else ([] : List VIssue)).countP (isSatPhase q) =
          if optGt d (phaseWorkerSlots workers q) then 1 else 0 := by
        split
        · simp [isSatPhase]
        · simp
      rw [hF, hhead, List.count_cons_self]
      ring
    · rw [List.count_cons_of_ne (fun hh => hqp hh.symm)]
      have hhead : (if optGt d (phaseWorkerSlots workers q) then
          [⟨.tasks, none, some "PreferredPhases",
            .saturation q d (phaseWorkerSlots workers q), .warning⟩]
          else ([] : List VIssue)).countP (isSatPhase p) = 0 := by
        refine countP_zero_of_shape fun e he => ?_
        split at he
        · simp only [List.mem_singleton] at he
          subst he
          simp [isSatPhase, hqp]
        · simp at he
      rw [hhead]
      omega

/-- Every saturation warning for phase `p` carries the actual total task
duration of `p` and the actual total worker slots of `p`. -/
theorem perPhaseIssues_sat_eq {workers tasks : List Row} (p : JVal) :
    ∀ {ps : List JVal} {es' : List VIssue},
      perPhaseIssues workers tasks ps = .ok es' →
      ∀ e ∈ es', isSatPhase p e = true →
        ∃ d, phaseTaskDuration tasks p = .ok d ∧
          e = ⟨.tasks, none, some "PreferredPhases",
            .saturation p d (phaseWorkerSlots workers p), .warning⟩ := by
  intro ps
  induction ps with
  | nil =>
    intro es' h e he _
    simp only [perPhaseIssues] at h
    cases h
    simp at he
  | cons q ps ih =>
    intro es' h e he hsat
    simp only [perPhaseIssues] at h
    rcases except_bind_ok.mp h with ⟨d, hd, h⟩
    rcases except_bind_ok.mp h with ⟨rest, hrest, hpure⟩
    simp only [pure, Except.pure, Except.ok.injEq] at hpure
    subst hpure
    rcases List.mem_append.mp he with hm | hm
    · split at hm
      · simp only [List.mem_singleton] at hm
        subst hm
        have hq : q = p := by simpa [isSatPhase] using hsat
        subst hq
        exact ⟨d, hd, rfl⟩
      · simp at hm
    · exact ih hrest e hm hsat

/-- C7 amended: when both tables are present and non-empty, the code walks
the insertion-ordered set of *all* elements of all workers' parsed
`AvailableSlots` arrays (numeric or not).  For a phase value `p` outside
that set no saturation warning for `p` exists.  For `p` in the set with
total coerced duration `d` over tasks whose parsed `PreferredPhases`
contains `p`, exactly one warning for `p` is emitted iff the JS comparison
`d > totalSlots` holds (false whenever either total is `NaN`), and every
such warning is the table-level tasks warning naming `p` and both
totals. -/
theorem C7_saturation_amended {c w t : Option (List Row)} {es : List VIssue}
    (h : validateDataE c w t = .ok es) (workers tasks : List Row)
    (hw : w = some workers) (ht : t = some tasks)
    (hwne : workers ≠ []) (htne : tasks ≠ []) (p : JVal) :
    (p ∉ allWorkerPhases workers → es.countP (isSatPhase p) = 0) ∧
    (∀ d, p ∈ allWorkerPhases workers →
      phaseTaskDuration tasks p = .ok d →
      es.countP (isSatPhase p) =
        (if optGt d (phaseWorkerSlots workers p) then 1 else 0) ∧
      es.countP (isSatWarn p d (phaseWorkerSlots workers p)) =
        es.countP (isSatPhase p)) := by
  subst hw ht
  obtain ⟨e9, h9, hcount⟩ := validateDataE_satMsg_count h (isSatPhase p)
    (fun e hq => by
      cases hm : e.message <;> simp [isSatPhase, hm] at hq
      exact ⟨_, _, _, rfl⟩)
  have hsat : perPhaseIssues workers tasks (allWorkerPhases workers) = .ok e9 := by
    have : saturationCheck workers tasks = .ok e9 := by
      simpa [whenBothM, hwne, htne] using h9
    exact this
  refine ⟨fun hnot => ?_, fun d hin hd => ?_⟩
  · rw [hcount, perPhaseIssues_countP p hsat,
      List.count_eq_zero_of_not_mem hnot]
    simp
  · have hone : es.countP (isSatPhase p) =
        if optGt d (phaseWorkerSlots workers p) then 1 else 0 := by
      rw [hcount, perPhaseIssues_countP p hsat,
        List.count_eq_one_of_mem (allWorkerPhases_nodup workers) hin, hd]
      simp
    refine ⟨hone, ?_⟩
    obtain ⟨e9', h9', hcount'⟩ := validateDataE_satMsg_count h
      (isSatWarn p d (phaseWorkerSlots workers p))
      (fun e hq => by
        simp only [isSatWarn, Bool.and_eq_true, beq_iff_eq] at hq
        exact ⟨p, d, phaseWorkerSlots workers p, by tauto⟩)
    have he9 : e9' = e9 := by
      have heq := h9.symm.trans h9'
      exact ((Except.ok.injEq _ _).mp heq).symm
    subst he9
    rw [hcount, hcount']
    refine List.countP_congr fun e he => ?_
    constructor
    · intro hq
      have hmsg : e.message = .saturation p d (phaseWorkerSlots workers p) := by
        simp only [isSatWarn, Bool.and_eq_true, beq_iff_eq] at hq
        tauto
      simp [isSatPhase, hmsg]
    · intro hq
      obtain ⟨d', hd', heq⟩ := perPhaseIssues_sat_eq p hsat e he hq
      have hdd : d' = d := by
        rw [hd] at hd'
        exact ((Except.ok.injEq _ _).mp hd').symm
      subst hdd
      subst heq
      simp [isSatWarn]

/-- C7 witness: worker slots `["x"]` put the string phase `"x"` in the
phase set; no task prefers it (duration total 0) while the slot total is
`-1`, so exactly one full saturation warning for `"x"` appears, and a
phase outside the set (the number 7) gets none. -/
theorem C7_witness :
    ∃ es, validateDataE none (some [workerX]) (some [taskT1]) = .ok es ∧
      es.countP (isSatPhase (.str "x")) = 1 ∧
      es.countP (isSatWarn (.str "x") (some 0)
        (phaseWorkerSlots [workerX] (.str "x"))) = 1 ∧
      es.countP (isSatPhase (.num (some 7))) = 0 := by
  cases hx : validateDataE none (some [workerX]) (some [taskT1]) with
  | error e =>
    cases e
    exact absurd hx (by decide)
  | ok es =>
    refine ⟨es, rfl, ?_, ?_, ?_⟩
    · have h1 := (C7_saturation_amended hx [workerX] [taskT1] rfl rfl
        (by decide) (by decide) (.str "x")).2 (some 0) (by decide) (by decide)
      rw [h1.1]
      decide
    · have h1 := (C7_saturation_amended hx [workerX] [taskT1] rfl rfl
        (by decide) (by decide) (.str "x")).2 (some 0) (by decide) (by decide)
      rw [h1.2, h1.1]
      decide
    · exact (C7_saturation_amended hx [workerX] [taskT1] rfl rfl
        (by decide) (by decide) (.num (some 7))).1 (by decide)






